import Mathlib

/-!
# proc-inspector: a model of `inspector.c`

C strings are lists of characters without the terminating NUL.  A finite `double`
or `long double` is a rational number, and every floating-point operation returns
the exact result rounded to the significand of its type (round to nearest, ties
to even; the exponent range is not bounded).  A C `int` is an integer together
with the range it must lie in when a conversion produces it.  A local variable
the C code declares without a value enters a function as a parameter.
-/

namespace Inspector

/-! ## C library -/

/-- The buffer size, `#define BUF_SZ 128`. -/
def BUF_SZ : Nat := 128

/-- The NUL character that ends a C string. -/
def NUL : Char := Char.ofNat 0

/-- Smallest value of a 32-bit `int`. -/
def INT_MIN : Int := -2147483648

/-- Largest value of a 32-bit `int`. -/
def INT_MAX : Int := 2147483647

/-- The text of `printf("%d", n)`. -/
def fmt_d (n : Int) : List Char := (toString n).toList

/-- The text of `printf("%Ns", s)`: `s` right-justified in a field of at least `w` characters. -/
def fmt_s (w : Nat) (s : List Char) : List Char := List.replicate (w - s.length) ' ' ++ s

/-- The conversion `(int) x` of a finite double `x`: the fraction is discarded (truncation toward
zero); C leaves the conversion undefined when the result does not fit an `int`. -/
def to_int (x : ℚ) : Option Int :=
  let t : Int := if 0 ≤ x then ⌊x⌋ else ⌈x⌉
  if INT_MIN ≤ t ∧ t ≤ INT_MAX then some t else none

/-- The C `isspace` in the C locale. -/
def isspace (c : Char) : Bool :=
  c = ' ' || c = '\t' || c = '\n' || c = Char.ofNat 11 || c = Char.ofNat 12 || c = '\r'

/-- The C `isdigit`. -/
def isdigit (c : Char) : Bool := decide ('0' ≤ c ∧ c ≤ '9')

/-- The number a run of decimal digits writes. -/
def digits_val (ds : List Char) : Nat :=
  ds.foldl (fun n c => 10 * n + (c.toNat - 48)) 0

/-- The sign a number starts with, and the characters after it. -/
def take_sign (s : List Char) : Bool × List Char :=
  match s with
  | '-' :: t => (true, t)
  | '+' :: t => (false, t)
  | _ => (false, s)

/-- The C `atoi`: white space, an optional sign, then the leading decimal digits (0 when
there are none).  The value is not reduced to the range of `int`. -/
def atoi (s : List Char) : Int :=
  let (neg, t) := take_sign (s.dropWhile isspace)
  let n : Int := digits_val (t.takeWhile isdigit)
  if neg then -n else n

/-- The parts of the number written by the longest leading part of `s` of the
shape white space, optional sign, digits, optional point and digits: whether it
is negative, the value of all its digits, and how many of them follow the
point.  Exponents, hexadecimal numbers, `inf` and `nan` are not read. -/
def parse_parts (s : List Char) : Bool × Nat × Nat :=
  let (neg, t) := take_sign (s.dropWhile isspace)
  let ip := t.takeWhile isdigit
  let fp :=
    match t.dropWhile isdigit with
    | '.' :: r => r.takeWhile isdigit
    | _ => []
  (neg, digits_val (ip ++ fp), fp.length)

/-- The number that `parse_parts` describes. -/
def parse_decimal (s : List Char) : ℚ :=
  let (neg, m, k) := parse_parts s
  let v : ℚ := (m : ℚ) / (10 : ℚ) ^ k
  if neg then -v else v

/-- The C `strstr(haystack, needle)`: the part of `haystack` from the first occurrence
of `needle` on, or `none` (NULL) if there is none. -/
def strstr (haystack needle : List Char) : Option (List Char) :=
  match haystack with
  | [] => if needle = [] then some [] else none
  | c :: cs => if needle.isPrefixOf (c :: cs) then some (c :: cs) else strstr cs needle

/-- The number of bytes `read(fd, buffer, BUF_SZ)` returns at offset `off` of a
readable file. -/
def read_sz (file : List Char) (off : Nat) : Nat := min BUF_SZ (file.length - off)

/-- The C string at `buffer` after `read(fd, buffer, BUF_SZ)` at offset `off` into a
buffer that was zeroed before: the bytes read, up to the first NUL.  When all
`BUF_SZ` bytes are filled the array holds no terminator; the string is then taken
to end with the array. -/
def read_str (file : List Char) (off : Nat) : List Char :=
  ((file.drop off).take BUF_SZ).takeWhile (fun c => c ≠ NUL)

/-! ## Floating point -/

/-- The integer nearest to `s`, the even one of the two when `s` lies halfway. -/
def round_half_even (s : ℚ) : Int :=
  let f := ⌊s⌋
  let r := s - f
  if r < 1 / 2 then f else if 1 / 2 < r then f + 1 else if f % 2 = 0 then f else f + 1

/-- The value with a `p`-bit significand nearest to `q` (ties to even). -/
def round_to (p : Nat) (q : ℚ) : ℚ :=
  if q = 0 then 0
  else
    let e : Int := Int.log 2 |q|
    let ulp : ℚ := (2 : ℚ) ^ (e - ((p : Int) - 1))
    (round_half_even (q / ulp) : ℚ) * ulp

/-- Significand bits of `double`. -/
def DBL_MANT_DIG : Nat := 53

/-- Significand bits of `long double` (the x87 extended format). -/
def LDBL_MANT_DIG : Nat := 64

/-- A `double` or `long double` value: finite, an infinity, or not a number.
Zero carries no sign. -/
inductive fp where
  | fin (q : ℚ)
  | pinf
  | ninf
  | nan
deriving DecidableEq, Repr

/-- Division with the quotient rounded to `p` bits.  A nonzero value divided by
zero is an infinity, zero divided by zero is not a number. -/
def fp.div (p : Nat) : fp → fp → fp
  | .fin a, .fin b =>
    if b = 0 then (if a = 0 then .nan else if 0 < a then .pinf else .ninf)
    else .fin (round_to p (a / b))
  | .fin _, .pinf => .fin 0
  | .fin _, .ninf => .fin 0
  | .pinf, .fin b => if 0 ≤ b then .pinf else .ninf
  | .ninf, .fin b => if 0 ≤ b then .ninf else .pinf
  | _, _ => .nan

/-- Subtraction with the difference rounded to `p` bits. -/
def fp.sub (p : Nat) : fp → fp → fp
  | .fin a, .fin b => .fin (round_to p (a - b))
  | .fin _, .pinf => .ninf
  | .fin _, .ninf => .pinf
  | .pinf, .fin _ => .pinf
  | .pinf, .ninf => .pinf
  | .ninf, .fin _ => .ninf
  | .ninf, .pinf => .ninf
  | _, _ => .nan

/-- Multiplication with the product rounded to `p` bits. -/
def fp.mul (p : Nat) : fp → fp → fp
  | .fin a, .fin b => .fin (round_to p (a * b))
  | .fin a, .pinf => if a = 0 then .nan else if 0 < a then .pinf else .ninf
  | .fin a, .ninf => if a = 0 then .nan else if 0 < a then .ninf else .pinf
  | .pinf, .fin b => if b = 0 then .nan else if 0 < b then .pinf else .ninf
  | .ninf, .fin b => if b = 0 then .nan else if 0 < b then .ninf else .pinf
  | .pinf, .pinf => .pinf
  | .ninf, .ninf => .pinf
  | .pinf, .ninf => .ninf
  | .ninf, .pinf => .ninf
  | _, _ => .nan

/-- Conversion to a type with a `p`-bit significand. -/
def fp.round (p : Nat) : fp → fp
  | .fin a => .fin (round_to p a)
  | x => x

/-- The C `isnan`. -/
def fp.isnan : fp → Bool
  | .nan => true
  | _ => false

/-- The conversion `(int) x`: undefined for a value that is not finite. -/
def fp.to_int : fp → Option Int
  | .fin q => Inspector.to_int q
  | _ => none

/-- The C `atof(s)` and `strtod(s, NULL)`: the double nearest to the number read. -/
def atof (s : List Char) : ℚ := round_to DBL_MANT_DIG (parse_decimal s)

/-- The constant `0.05` of type double. -/
def c_0_05 : ℚ := round_to DBL_MANT_DIG (5 / 100)

/-- The text of `printf("%.1f", x)`. -/
def fmt_f1 : fp → List Char
  | .fin q =>
    let t := (round_half_even (|q| * 10)).toNat
    (if q < 0 then ['-'] else []) ++ (toString (t / 10)).toList ++ ['.'] ++
      (toString (t % 10)).toList
  | .pinf => "inf".toList
  | .ninf => "-inf".toList
  | .nan => "nan".toList

/-! ## The tokenizer -/

/-- Modelled from the spec: `next_token` of `str_func.h`, which is not among the
sources.  Leading characters of the delimiter set are skipped; the token is the
run of characters up to the next delimiter or the end of the string; the cursor
moves past that delimiter.  When nothing is left the end marker (`none`, the NULL
of C) is returned and the cursor stays exhausted (empty). -/
def next_token (cursor : List Char) (delim : List Char) : Option (List Char) × List Char :=
  let s := cursor.dropWhile (fun c => decide (c ∈ delim))
  let token := s.takeWhile (fun c => decide (c ∉ delim))
  if token = [] then (none, [])
  else (some token, (s.dropWhile (fun c => decide (c ∉ delim))).drop 1)

/-! ## get_curr_state (lines 653-672) -/

/-- The function `get_curr_state`: the name of a task state character. -/
def get_curr_state (c : Char) : List Char :=
  match c with
  | 'R' => "running".toList
  | 'S' => "sleeping".toList
  | 'D' => "disk sleep".toList
  | 'Z' => "zombie".toList
  | 'T' => "tracing stop".toList
  | 't' => "tracing stop".toList
  | 'X' => "dead".toList
  | _ => "sleeping".toList

/-! ## get_system (lines 174-273) -/

/-- The five `int` variables `year, day, hour, min, sec` of `get_system`. -/
structure Uptime where
  year : Int
  day : Int
  hour : Int
  min : Int
  sec : Int
deriving DecidableEq, Repr

/-- Lines 233-237 of `get_system`, from `sec = (int) uptime`.  C's `/` and `%` on
`int` truncate toward zero: `Int.tdiv` and `Int.tmod`. -/
def calc_uptime (sec : Int) : Uptime :=
  let min := (sec.tdiv 60).tmod 60
  let hour := (sec.tdiv 3600).tmod 24
  let day := (sec.tdiv 86400).tmod 365
  let year := sec.tdiv 31536000
  let sec := sec.tmod 60
  { year := year, day := day, hour := hour, min := min, sec := sec }

/-- Lines 232-237 of `get_system`: the breakdown of the double `uptime`. -/
def get_system_uptime (uptime : ℚ) : Option Uptime :=
  (to_int uptime).map calc_uptime

/-- Lines 246-271 of `get_system`: what is printed between `"Uptime:"` and the
final newlines.  `addComma` is the C flag of that name. -/
def print_uptime (u : Uptime) : List Char :=
  let out : List Char := []
  let addComma := false
  let (out, addComma) :=
    if u.year ≠ 0 then (out ++ " ".toList ++ fmt_d u.year ++ " years".toList, true)
    else (out, addComma)
  let (out, addComma) :=
    if u.day ≠ 0 ∧ addComma = true then
      (out ++ ", ".toList ++ fmt_d u.day ++ " days".toList, true)
    else if u.day ≠ 0 then (out ++ " ".toList ++ fmt_d u.day ++ " days".toList, true)
    else (out, addComma)
  let (out, addComma) :=
    if u.hour ≠ 0 ∧ addComma = true then
      (out ++ ", ".toList ++ fmt_d u.hour ++ " hours".toList, true)
    else if u.hour ≠ 0 then (out ++ " ".toList ++ fmt_d u.hour ++ " hours".toList, true)
    else (out, addComma)
  let out :=
    if addComma = true then out ++ ", ".toList ++ fmt_d u.min ++ " minutes".toList
    else out ++ " ".toList ++ fmt_d u.min ++ " minutes".toList
  out ++ ", ".toList ++ fmt_d u.sec ++ " seconds".toList

/-- The fields the specification lets the uptime line show, in order: years, days
and hours only when nonzero, minutes and seconds always. -/
def uptime_fields (u : Uptime) : List (List Char) :=
  (if u.year ≠ 0 then [fmt_d u.year ++ " years".toList] else []) ++
  (if u.day ≠ 0 then [fmt_d u.day ++ " days".toList] else []) ++
  (if u.hour ≠ 0 then [fmt_d u.hour ++ " hours".toList] else []) ++
  [fmt_d u.min ++ " minutes".toList, fmt_d u.sec ++ " seconds".toList]

/-- The uptime text in the specification's words: one space, then the shown
fields separated by `", "`. -/
def uptime_text_spec (u : Uptime) : List Char :=
  " ".toList ++ List.intercalate ", ".toList (uptime_fields u)

/-- What `get_system` leaves in `hostname`, `kernel` and the uptime variables, and
what it prints. -/
structure system_info where
  hostname : List Char
  kernel : List Char
  uptime : Uptime
  output : List Char
deriving DecidableEq, Repr

/-- The function `get_system`.  The three files are given by their contents; `hostname`, `kernel`
and `uptime_line` are the initial contents of the local arrays of those names.
The result is `none` where the C code hands the end marker of `next_token` to
`strcpy` or `atof`, or converts an uptime that does not fit an `int`. -/
def get_system (hostname kernel uptime_line : List Char)
    (hostname_file osrelease_file uptime_file : List Char) : Option system_info :=
  let hostname? :=
    if read_sz hostname_file 0 ≠ 0 then (next_token (read_str hostname_file 0) " ".toList).1
    else some hostname
  let kernel? :=
    if read_sz osrelease_file 0 ≠ 0 then (next_token (read_str osrelease_file 0) " ".toList).1
    else some kernel
  let uptime_line := if read_sz uptime_file 0 ≠ 0 then read_str uptime_file 0 else uptime_line
  match hostname?, kernel?, (next_token uptime_line " ".toList).1 with
  | some hostname, some kernel, some temp =>
    let uptime := atof temp
    match get_system_uptime uptime with
    | some u =>
      some
        { hostname := hostname
          kernel := kernel
          uptime := u
          output :=
            "System Information\n".toList ++ "------------------\n".toList ++
            "Hostname: ".toList ++ hostname ++ "Kernel Version: ".toList ++ kernel ++
            "Uptime:".toList ++ print_uptime u ++ "\n\n".toList }
    | none => none
  | _, _, _ => none

/-! ## get_hardware (lines 275-452) -/

/-- Lines 292-314 of `get_hardware`: the scan of `./cpuinfo`, over the strings that
the successive reads leave in `buffer` (for a file shorter than `BUF_SZ` that is
the one string of its content).  `model` and `processing_units` are the values
the two local variables hold before the loop.  The result is `none` where the
end marker of `next_token` is dereferenced. -/
def get_hardware_cpuinfo (model : List Char) (processing_units : Int) :
    List (List Char) → Option (List Char × Int)
  | [] => some (model, processing_units)
  | buffer :: reads =>
    let model_line := strstr buffer "model name".toList
    let siblings_line := strstr buffer "siblings".toList
    let model? : Option (List Char) :=
      match model_line with
      | some tok =>
        let (_, tok) := next_token tok ":".toList
        let (next, _) := next_token tok ":\n".toList
        next.map (fun n => n.drop 1)
      | none => some model
    match model? with
    | none => none
    | some model =>
      match siblings_line with
      | some tok =>
        let (_, tok) := next_token tok ":".toList
        let (next, _) := next_token tok " ".toList
        match next with
        | none => none
        | some next => some (model, atoi next * 2)
      | none => get_hardware_cpuinfo model processing_units reads

/-- The loop `while (i++ < 9)` of lines 343-349 and 364-370: `n` tokens are still
to be read, `i` is the value of the counter before the test. -/
def stat_loop : Nat → Nat → List Char → ℚ → ℚ → Option (ℚ × ℚ)
  | 0, _, _, cpu_total, cpu_idle => some (cpu_total, cpu_idle)
  | n + 1, i, tok, cpu_total, cpu_idle =>
    match next_token tok " ".toList with
    | (none, _) => none
    | (some num, tok) =>
      stat_loop n (i + 1) tok (round_to LDBL_MANT_DIG (cpu_total + atof num))
        (if i + 1 = 4 then atof num else cpu_idle)

/-- Lines 337-350 (and 358-371) of `get_hardware`: one sample of `./stat`.
`cpu_total` and `cpu_idle` are the values the accumulators hold before the read;
the result is the pair after it. -/
def get_hardware_stat (cpu_total cpu_idle : ℚ) (stat_file : List Char) : Option (ℚ × ℚ) :=
  if read_sz stat_file 0 ≠ 0 then
    let (_, tok) := next_token (read_str stat_file 0) " ".toList
    stat_loop 9 0 tok cpu_total cpu_idle
  else some (cpu_total, cpu_idle)

/-- The next `n` space-delimited tokens at a cursor, `none` if they run out. -/
def stat_tokens : Nat → List Char → Option (List (List Char))
  | 0, _ => some []
  | n + 1, tok =>
    match next_token tok " ".toList with
    | (none, _) => none
    | (some num, tok) => (stat_tokens n tok).map (fun ts => num :: ts)

/-- A sample in the specification's words: the label token is skipped and the next
nine tokens are the numeric fields, given here by their values. -/
def stat_fields (stat_file : List Char) : Option (List ℚ) :=
  if read_sz stat_file 0 ≠ 0 then
    (stat_tokens 9 (next_token (read_str stat_file 0) " ".toList).2).map (fun ts => ts.map atof)
  else none

/-- The accumulators after the loop of `stat_loop` has added the values `vs`, the
counter being `i` before. -/
def stat_acc : Nat → ℚ → ℚ → List ℚ → ℚ × ℚ
  | _, cpu_total, cpu_idle, [] => (cpu_total, cpu_idle)
  | i, cpu_total, cpu_idle, v :: vs =>
    stat_acc (i + 1) (round_to LDBL_MANT_DIG (cpu_total + v)) (if i + 1 = 4 then v else cpu_idle) vs

/-- Lines 378-380 of `get_hardware`: `cpu_usage` from the two samples. -/
def get_hardware_cpu_usage (cpu_total_1 cpu_idle_1 cpu_total_2 cpu_idle_2 : ℚ) : fp :=
  let cpu_total := round_to LDBL_MANT_DIG (cpu_total_2 - cpu_total_1)
  let cpu_idle := round_to DBL_MANT_DIG (cpu_idle_2 - cpu_idle_1)
  fp.round DBL_MANT_DIG
    (fp.sub LDBL_MANT_DIG (.fin 1) (fp.div LDBL_MANT_DIG (.fin cpu_idle) (.fin cpu_total)))

/-- Lines 386-409 of `get_hardware`: `mem_total` and `mem_active` after the
conversion to gigabytes.  The arguments are the values the two variables hold
before the file is read. -/
def get_hardware_meminfo (mem_total mem_active : ℚ) (meminfo : List Char) : Option (ℚ × ℚ) :=
  let conv := fun (x : ℚ) => round_to DBL_MANT_DIG (x / (1024 * 1024))
  if read_sz meminfo 0 ≠ 0 then
    let (_, tok) := next_token (read_str meminfo 0) " ".toList
    let (next, _) := next_token tok " ".toList
    match next with
    | none => none
    | some next =>
      let mem_total := atof next
      let off := read_sz meminfo 0
      if read_sz meminfo off ≠ 0 then
        let (_, tok) := next_token (read_str meminfo off) "\n".toList
        let (_, tok) := next_token tok "\n".toList
        let (_, tok) := next_token tok " ".toList
        let (next, _) := next_token tok " ".toList
        match next with
        | none => none
        | some next => some (conv mem_total, conv (atof next))
      else some (conv mem_total, conv mem_active)
  else some (conv mem_total, conv mem_active)

/-- The memory figures in the specification's words: the second
whitespace-delimited token of the first line (total) and of the second line
(active) of the file. -/
def meminfo_spec_tokens (meminfo : List Char) : Option (List Char × List Char) :=
  let (line1, rest) := next_token meminfo "\n".toList
  let (line2, _) := next_token rest "\n".toList
  match line1, line2 with
  | some line1, some line2 =>
    match (next_token (next_token line1 " \t".toList).2 " \t".toList).1,
      (next_token (next_token line2 " \t".toList).2 " \t".toList).1 with
    | some total, some active => some (total, active)
    | _, _ => none
  | _, _ => none

/-- The memory usage ratio `mem_active / mem_total` of lines 439 and 451. -/
def get_hardware_mem_usage (mem_total mem_active : ℚ) : fp :=
  fp.div DBL_MANT_DIG (.fin mem_active) (.fin mem_total)

/-- The loops of lines 424-429 and 442-447: slot `i` of the 20 is `#` when
`i < hashes` and `-` otherwise. -/
def print_bar (hashes : Int) : List Char :=
  (List.range 20).map (fun (i : Nat) => if (i : Int) < hashes then '#' else '-')

/-- Lines 423-429 and 439-447 of `get_hardware`: the bar printed for a usage ratio,
with `int hashes = ratio / 0.05`.  It is `none` where that conversion is
undefined. -/
def get_hardware_gauge (ratio : fp) : Option (List Char) :=
  (fp.to_int (fp.div DBL_MANT_DIG ratio (.fin c_0_05))).map print_bar

/-- The number of filled slots in the specification's words:
`clamp(floor(ratio / 0.05), 0, 20)`, the quotient being that of two doubles. -/
def filled_slots_spec (ratio : ℚ) : Nat :=
  (max 0 (min 20 ⌊round_to DBL_MANT_DIG (ratio / c_0_05)⌋)).toNat

/-- Lines 431-435 of `get_hardware`: the text printed after the CPU bar. -/
def print_cpu_percent (cpu_usage : fp) : List Char :=
  if cpu_usage.isnan = false then
    "] ".toList ++ fmt_f1 (fp.mul DBL_MANT_DIG cpu_usage (.fin 100)) ++ "%\n".toList
  else "] 0.0%\n".toList

/-- Lines 421-435 of `get_hardware`: the CPU usage line. -/
def print_cpu_line (cpu_usage : fp) : Option (List Char) :=
  (get_hardware_gauge cpu_usage).map
    (fun bar => "CPU Usage:    [".toList ++ bar ++ print_cpu_percent cpu_usage)

/-! ## get_task_list (lines 530-620) -/

/-- The C `struct task_info`. -/
structure task_info where
  pid : Int
  state : List Char
  name : List Char
  user : List Char
  tasks : Int
deriving DecidableEq, Repr

/-- Lines 567-573 of `get_task_list`: the `Name` label in one buffer. -/
def status_name (ti : task_info) (buffer : List Char) : Option task_info :=
  match strstr buffer "Name".toList with
  | none => some ti
  | some name =>
    let (_, name) := next_token name "\t\n".toList
    let (next, _) := next_token name "\t\n".toList
    match next with
    | none => none
    | some next =>
      let next := if next.length > 24 then next.take 25 else next
      some { ti with name := ti.name ++ next }

/-- Lines 574-578 of `get_task_list`: the `State` label in one buffer. -/
def status_state (ti : task_info) (buffer : List Char) : Option task_info :=
  match strstr buffer "State".toList with
  | none => some ti
  | some state =>
    let (_, state) := next_token state "\t".toList
    let (next, _) := next_token state " ".toList
    match next with
    | none => none
    | some next => some { ti with state := ti.state ++ get_curr_state (next.headD NUL) }

/-- Lines 579-591 of `get_task_list`: the `Uid` label in one buffer.  `getpwuid`
gives the user name of a user id, if there is one. -/
def status_uid (getpwuid : Int → Option (List Char)) (ti : task_info) (buffer : List Char) :
    Option task_info :=
  match strstr buffer "Uid".toList with
  | none => some ti
  | some uid =>
    let (_, uid) := next_token uid "\t".toList
    let (next, _) := next_token uid "\t".toList
    match next with
    | none => none
    | some next =>
      match getpwuid (atoi next % 4294967296) with
      | some pw_name => some { ti with user := ti.user ++ pw_name }
      | none => some { ti with user := ti.user ++ next }

/-- Lines 592-596 of `get_task_list`: the `Threads` label in one buffer. -/
def status_threads (ti : task_info) (buffer : List Char) : Option task_info :=
  match strstr buffer "Threads".toList with
  | none => some ti
  | some threads =>
    let (_, threads) := next_token threads "\t".toList
    let (next, _) := next_token threads "\t".toList
    match next with
    | none => none
    | some next => some { ti with tasks := atoi next }

/-- Lines 562-597 of `get_task_list`: the loop over the reads of one status file,
given as the strings the successive reads leave in `buffer` (for a file shorter
than `BUF_SZ` that is the one string of its content).  Each label is looked up
in the buffer as it was read.  The result is `none` where the end marker of
`next_token` is dereferenced. -/
def read_status (getpwuid : Int → Option (List Char)) :
    task_info → List (List Char) → Option task_info
  | ti, [] => some ti
  | ti, buffer :: reads => do
    let ti ← status_name ti buffer
    let ti ← status_state ti buffer
    let ti ← status_uid getpwuid ti buffer
    let ti ← status_threads ti buffer
    read_status getpwuid ti reads

/-- Lines 604-605 of `get_task_list`: the row printed for one task. -/
def print_task (ti : task_info) : List Char :=
  fmt_s 5 (fmt_d ti.pid) ++ " | ".toList ++ fmt_s 12 ti.state ++ " | ".toList ++
    fmt_s 25 ti.name ++ " | ".toList ++ fmt_s 15 ti.user ++ " | ".toList ++
    fmt_d ti.tasks ++ " \n".toList

/-- Lines 558-605 of `get_task_list` for one process directory: the record built
from its status file, for the directory name `d_name`. -/
def get_task_list_entry (getpwuid : Int → Option (List Char)) (d_name : List Char)
    (reads : List (List Char)) : Option task_info :=
  read_status getpwuid
    { pid := atoi d_name, state := [], name := [], user := [], tasks := 0 } reads

/-! ## Example inputs -/

/-- A first sample: user 4, idle 10, iowait 6. -/
def stat_sample_1 : List Char := "cpu  4 0 0 10 6 0 0 0 0 0\n".toList

/-- A later sample in which no field has decreased: user 5, idle 12. -/
def stat_sample_2 : List Char := "cpu  5 0 0 12 6 0 0 0 0 0\n".toList

/-- A later sample in which iowait has decreased from 6 to 4. -/
def stat_sample_3 : List Char := "cpu  5 0 0 12 4 0 0 0 0 0\n".toList

/-- A later sample with the same total: idle 12, iowait 4. -/
def stat_sample_4 : List Char := "cpu  4 0 0 12 4 0 0 0 0 0\n".toList

/-- A status file with a process name of 30 characters. -/
def status_example : List Char :=
  ("Name:\tabcdefghijklmnopqrstuvwxyz0123\nState:\tS (sleeping)\n" ++
    "Uid:\t1000\t1000\nThreads:\t3\n").toList

/-- The first 128 bytes of a status file of 256 bytes. -/
def status_read_1 : List Char :=
  ("Name:\tabcdefghijklmnopqrst\nState:\tS (sleeping)\nUid:\t1000\t1000\nThreads:\t3\n" ++
    "Pad:\txxxxxxxxxxxxxxxxxxxxxxxxxxxxxxxxxxxxxxxxxxxxxxxxx\n").toList

/-- The last 128 bytes of that status file, which show the label "Name" again. -/
def status_read_2 : List Char :=
  ("Name:\tABCDEFGHIJKLMNOPQRST\nState:\tS (sleeping)\nUid:\t1000\t1000\nThreads:\t3\n" ++
    "Pad:\txxxxxxxxxxxxxxxxxxxxxxxxxxxxxxxxxxxxxxxxxxxxxxxxx\n").toList

/-- A CPU-description file without a "siblings" line. -/
def cpuinfo_example : List Char := "processor\t: 0\nmodel name\t: Acme CPU\n".toList

/-- A CPU-description file with neither a "model name" nor a "siblings" line, as
ARM kernels write it. -/
def cpuinfo_arm_example : List Char :=
  "processor\t: 0\nBogoMIPS\t: 108.00\nFeatures\t: fp asimd\n".toList

/-- A CPU-description file with a "siblings" line. -/
def cpuinfo_siblings_example : List Char :=
  "model name\t: Acme CPU\nsiblings\t: 8\ncpu cores\t: 4\n".toList

/-- A memory-info file of eight lines of 28 bytes. -/
def meminfo_example : List Char :=
  ("MemTotal:       16384256 kB\n" ++ "MemFree:         1234567 kB\n" ++
    "MemAvailable:    9876543 kB\n" ++ "Buffers:          345678 kB\n" ++
    "Cached:          4567890 kB\n" ++ "SwapCached:            0 kB\n" ++
    "Active:          8192128 kB\n" ++ "Inactive:        2345678 kB\n").toList

/-- The first two lines of `meminfo_example`. -/
def meminfo_two_lines : List Char :=
  ("MemTotal:       16384256 kB\n" ++ "MemFree:         1234567 kB\n").toList

/-! ## Lemmas -/

/-! ### Rounding -/

theorem int_log_two_eq {q : ℚ} {e : Int} (h1 : (2 : ℚ) ^ e ≤ q) (h2 : q < (2 : ℚ) ^ (e + 1)) :
    Int.log 2 q = e := by
  have hq : 0 < q := lt_of_lt_of_le (zpow_pos (by norm_num) e) h1
  have a : e ≤ Int.log 2 q := (Int.zpow_le_iff_le_log (by norm_num) hq).mp (by exact_mod_cast h1)
  have b : Int.log 2 q < e + 1 := (Int.lt_zpow_iff_log_lt (by norm_num) hq).mp (by exact_mod_cast h2)
  omega

theorem round_half_even_of_lt {s : ℚ} {f : Int} (h1 : (f : ℚ) ≤ s) (h2 : s < f + 1 / 2) :
    round_half_even s = f := by
  have hf : ⌊s⌋ = f := Int.floor_eq_iff.mpr ⟨h1, by linarith⟩
  simp only [round_half_even, hf]
  rw [if_pos (by linarith)]

theorem round_half_even_of_gt {s : ℚ} {m : Int} (h1 : (m : ℚ) - 1 / 2 < s) (h2 : s < m) :
    round_half_even s = m := by
  have hf : ⌊s⌋ = m - 1 := Int.floor_eq_iff.mpr ⟨by push_cast; linarith, by push_cast; linarith⟩
  simp only [round_half_even, hf]
  rw [if_neg (by push_cast; linarith), if_pos (by push_cast; linarith)]
  ring

theorem round_half_even_intCast (n : Int) : round_half_even (n : ℚ) = n := by
  apply round_half_even_of_lt <;> simp

theorem round_half_even_ge {s : ℚ} {m : Int} (h : (m : ℚ) ≤ s) : m ≤ round_half_even s := by
  have hf : m ≤ ⌊s⌋ := Int.le_floor.mpr h
  unfold round_half_even
  simp only
  split_ifs <;> omega

theorem round_half_even_le {s : ℚ} {m : Int} (h : s ≤ (m : ℚ)) : round_half_even s ≤ m := by
  have hf : (⌊s⌋ : ℚ) ≤ s := Int.floor_le s
  have hfm : ⌊s⌋ ≤ m := by exact_mod_cast hf.trans h
  have hlt : s - ⌊s⌋ ≥ 1 / 2 → ⌊s⌋ + 1 ≤ m := by
    intro hr
    have : (⌊s⌋ : ℚ) < m := by linarith
    have : ⌊s⌋ < m := by exact_mod_cast this
    omega
  unfold round_half_even
  simp only
  split_ifs with h1 h2 h3
  · exact hfm
  · exact hlt (by linarith)
  · exact hfm
  · exact hlt (by linarith)

theorem round_half_even_ge_half {s : ℚ} {m : Int} (h : (m : ℚ) - 1 / 2 < s) :
    m ≤ round_half_even s := by
  have hf : m - 1 ≤ ⌊s⌋ := Int.le_floor.mpr (by push_cast; linarith)
  rcases hf.eq_or_lt with h1 | h1
  · have hs : (⌊s⌋ : ℚ) = m - 1 := by rw [← h1]; push_cast; ring
    unfold round_half_even
    simp only
    rw [if_neg (by rw [hs]; linarith), if_pos (by rw [hs]; linarith)]
    omega
  · have : ⌊s⌋ ≤ round_half_even s := round_half_even_ge (Int.floor_le s)
    omega

theorem round_to_eq {p : Nat} {q : ℚ} (e m : Int) (h1 : (2 : ℚ) ^ e ≤ |q|)
    (h2 : |q| < (2 : ℚ) ^ (e + 1))
    (hm : round_half_even (q / (2 : ℚ) ^ (e - ((p : Int) - 1))) = m) :
    round_to p q = (m : ℚ) * (2 : ℚ) ^ (e - ((p : Int) - 1)) := by
  have hq : q ≠ 0 := by
    intro h
    rw [h, abs_zero] at h1
    exact absurd h1 (not_le.mpr (zpow_pos (by norm_num) e))
  simp only [round_to, if_neg hq, int_log_two_eq h1 h2, hm]

theorem round_to_zero (p : Nat) : round_to p 0 = 0 := by simp [round_to]

theorem ulp_eq (p : Nat) (hp : 1 ≤ p) (e : Int) :
    (2 : ℚ) ^ (e - ((p : Int) - 1)) = (2 : ℚ) ^ e / (2 : ℚ) ^ (p - 1) := by
  have hk : ((p : Int) - 1) = ((p - 1 : Nat) : Int) := by omega
  rw [hk, zpow_sub₀ (by norm_num), zpow_natCast]

theorem round_to_pos_bounds {p : Nat} (hp : 1 ≤ p) {q : ℚ} {e : Int} (h1 : (2 : ℚ) ^ e ≤ q)
    (h2 : q < (2 : ℚ) ^ (e + 1)) :
    (2 : ℚ) ^ e ≤ round_to p q ∧ round_to p q ≤ (2 : ℚ) ^ (e + 1) := by
  have he : (0 : ℚ) < 2 ^ e := zpow_pos (by norm_num) e
  have hq : 0 < q := lt_of_lt_of_le he h1
  have habs : |q| = q := abs_of_pos hq
  have hk : (0 : ℚ) < 2 ^ (p - 1) := pow_pos (by norm_num) _
  have hu : (0 : ℚ) < 2 ^ e / 2 ^ (p - 1) := div_pos he hk
  have e1 : (2 : ℚ) ^ (e + 1) = 2 ^ e * 2 := by rw [zpow_add₀ (by norm_num), zpow_one]
  simp only [round_to, if_neg hq.ne', habs, int_log_two_eq h1 h2, ulp_eq p hp]
  have lo : ((2 ^ (p - 1) : Int) : ℚ) ≤ q / (2 ^ e / 2 ^ (p - 1)) := by
    rw [le_div_iff₀ hu]
    push_cast
    rw [mul_div_cancel₀ _ hk.ne']
    exact h1
  have hi : q / (2 ^ e / 2 ^ (p - 1)) ≤ ((2 * 2 ^ (p - 1) : Int) : ℚ) := by
    rw [div_le_iff₀ hu]
    push_cast
    rw [mul_assoc, mul_div_cancel₀ _ hk.ne', mul_comm, ← e1]
    exact h2.le
  have lo' := round_half_even_ge lo
  have hi' := round_half_even_le hi
  have lo'' : ((2 ^ (p - 1) : Int) : ℚ) ≤ (round_half_even (q / (2 ^ e / 2 ^ (p - 1))) : ℚ) := by
    exact_mod_cast lo'
  have hi'' : (round_half_even (q / (2 ^ e / 2 ^ (p - 1))) : ℚ) ≤ ((2 * 2 ^ (p - 1) : Int) : ℚ) := by
    exact_mod_cast hi'
  constructor
  · calc (2 : ℚ) ^ e = ((2 ^ (p - 1) : Int) : ℚ) * (2 ^ e / 2 ^ (p - 1)) := by
          push_cast; rw [mul_div_cancel₀ _ hk.ne']
      _ ≤ _ := mul_le_mul_of_nonneg_right lo'' hu.le
  · calc _ ≤ ((2 * 2 ^ (p - 1) : Int) : ℚ) * (2 ^ e / 2 ^ (p - 1)) :=
          mul_le_mul_of_nonneg_right hi'' hu.le
      _ = (2 : ℚ) ^ (e + 1) := by
          push_cast; rw [mul_assoc, mul_div_cancel₀ _ hk.ne', mul_comm, ← e1]

theorem round_to_log_bounds {p : Nat} (hp : 1 ≤ p) {q : ℚ} (hq : 0 < q) :
    (2 : ℚ) ^ Int.log 2 q ≤ round_to p q ∧ round_to p q ≤ (2 : ℚ) ^ (Int.log 2 q + 1) := by
  apply round_to_pos_bounds hp
  · exact_mod_cast Int.zpow_log_le_self (b := 2) (by norm_num) hq
  · exact_mod_cast Int.lt_zpow_succ_log_self (b := 2) (by norm_num) q

theorem round_to_nonneg (p : Nat) {q : ℚ} (h : 0 ≤ q) : 0 ≤ round_to p q := by
  unfold round_to
  split_ifs with h0
  · exact le_refl _
  · simp only
    have hu : (0 : ℚ) < 2 ^ (Int.log 2 |q| - ((p : Int) - 1)) := zpow_pos (by norm_num) _
    have : (0 : Int) ≤ round_half_even (q / 2 ^ (Int.log 2 |q| - ((p : Int) - 1))) :=
      round_half_even_ge (by simpa using div_nonneg h hu.le)
    exact mul_nonneg (by exact_mod_cast this) hu.le

theorem round_to_nonpos (p : Nat) {q : ℚ} (h : q ≤ 0) : round_to p q ≤ 0 := by
  unfold round_to
  split_ifs with h0
  · exact le_refl _
  · simp only
    have hu : (0 : ℚ) < 2 ^ (Int.log 2 |q| - ((p : Int) - 1)) := zpow_pos (by norm_num) _
    have : round_half_even (q / 2 ^ (Int.log 2 |q| - ((p : Int) - 1))) ≤ (0 : Int) :=
      round_half_even_le (by simpa using div_nonpos_of_nonpos_of_nonneg h hu.le)
    exact mul_nonpos_of_nonpos_of_nonneg (by exact_mod_cast this) hu.le

theorem round_to_le_one {p : Nat} (hp : 1 ≤ p) {q : ℚ} (h0 : 0 ≤ q) (h1 : q ≤ 1) :
    round_to p q ≤ 1 := by
  rcases h0.eq_or_lt with h | h
  · rw [← h]; simp [round_to]
  rcases h1.eq_or_lt with h' | h'
  · rw [h']
    have := (round_to_pos_bounds hp (q := 1) (e := 0) (by norm_num) (by norm_num)).1
    have hb : round_to p 1 ≤ 1 := by
      have hk : (0 : ℚ) < 2 ^ (p - 1) := pow_pos (by norm_num) _
      have hs : (1 : ℚ) / (2 ^ (0 : Int) / 2 ^ (p - 1)) = ((2 ^ (p - 1) : Int) : ℚ) := by
        push_cast; field_simp
      simp only [round_to, if_neg (one_ne_zero), abs_one,
        int_log_two_eq (q := 1) (e := 0) (by norm_num) (by norm_num), ulp_eq p hp, hs,
        round_half_even_intCast]
      push_cast
      rw [zpow_zero, mul_one_div_cancel hk.ne']
    exact hb
  · have hl : Int.log 2 q < 0 := (Int.lt_zpow_iff_log_lt (b := 2) (by norm_num) h).mp (by simpa using h')
    have := (round_to_log_bounds hp h).2
    have h2 : (2 : ℚ) ^ (Int.log 2 q + 1) ≤ 1 := by
      apply zpow_le_one_of_nonpos₀ (by norm_num)
      omega
    exact this.trans h2

theorem round_to_natCast {p : Nat} {n : Nat} (hn : n < 2 ^ p) :
    round_to p (n : ℚ) = n := by
  rcases Nat.eq_zero_or_pos n with rfl | hpos
  · simp [round_to]
  have hq : (n : ℚ) ≠ 0 := by exact_mod_cast hpos.ne'
  have hlog : Int.log 2 |(n : ℚ)| = (Nat.log 2 n : Int) := by
    rw [abs_of_nonneg (Nat.cast_nonneg n)]
    exact Int.log_natCast 2 n
  have hlt : Nat.log 2 n < p := Nat.log_lt_of_lt_pow (by omega) hn
  obtain ⟨k, hk⟩ : ∃ k : Nat, ((Nat.log 2 n : Int) - ((p : Int) - 1)) = -(k : Int) :=
    ⟨p - 1 - Nat.log 2 n, by omega⟩
  have h2k : (2 : ℚ) ^ k ≠ 0 := pow_ne_zero _ (by norm_num)
  simp only [round_to, if_neg hq, hlog, hk, zpow_neg, zpow_natCast]
  have hs : (n : ℚ) / ((2 : ℚ) ^ k)⁻¹ = ((n * 2 ^ k : Int) : ℚ) := by
    push_cast; field_simp
  rw [hs, round_half_even_intCast]
  push_cast; field_simp

theorem round_to_dyadic {p n : Nat} (j : Nat) (hn : n < 2 ^ p) :
    round_to p ((n : ℚ) / 2 ^ j) = (n : ℚ) / 2 ^ j := by
  rcases Nat.eq_zero_or_pos n with rfl | hpos
  · simp [round_to]
  have h2j : (0 : ℚ) < 2 ^ j := pow_pos (by norm_num) _
  have hlt : Nat.log 2 n < p := Nat.log_lt_of_lt_pow (by omega) hn
  have hq : (0 : ℚ) < (n : ℚ) / 2 ^ j := div_pos (by exact_mod_cast hpos) h2j
  have e1 : (2 : ℚ) ^ ((Nat.log 2 n : Int) - (j : Int)) ≤ (n : ℚ) / 2 ^ j := by
    rw [zpow_sub₀ (by norm_num), zpow_natCast, zpow_natCast]
    apply div_le_div_of_nonneg_right _ h2j.le
    exact_mod_cast Nat.pow_log_le_self 2 hpos.ne'
  have e2 : (n : ℚ) / 2 ^ j < (2 : ℚ) ^ ((Nat.log 2 n : Int) - (j : Int) + 1) := by
    have : ((Nat.log 2 n : Int) - (j : Int) + 1) = ((Nat.log 2 n + 1 : Nat) : Int) - (j : Int) := by
      push_cast; ring
    rw [this, zpow_sub₀ (by norm_num), zpow_natCast, zpow_natCast]
    apply div_lt_div_of_pos_right _ h2j
    exact_mod_cast Nat.lt_pow_succ_log_self (by norm_num) n
  obtain ⟨k, hk⟩ : ∃ k : Nat,
      ((Nat.log 2 n : Int) - (j : Int) - ((p : Int) - 1)) = -((k + j : Nat) : Int) :=
    ⟨p - 1 - Nat.log 2 n, by omega⟩
  have h2k : (0 : ℚ) < 2 ^ k := pow_pos (by norm_num) _
  have hs : (n : ℚ) / 2 ^ j / (2 : ℚ) ^ ((Nat.log 2 n : Int) - (j : Int) - ((p : Int) - 1)) =
      ((n * 2 ^ k : Int) : ℚ) := by
    rw [hk, zpow_neg, zpow_natCast, pow_add]
    push_cast; field_simp; ring
  rw [round_to_eq ((Nat.log 2 n : Int) - (j : Int)) (n * 2 ^ k) (by rw [abs_of_pos hq]; exact e1)
    (by rw [abs_of_pos hq]; exact e2) (by rw [hs, round_half_even_intCast])]
  rw [hk, zpow_neg, zpow_natCast, pow_add]
  push_cast; field_simp; ring

theorem round_to_one (p : Nat) (hp : 1 ≤ p) : round_to p 1 = 1 := by
  have := round_to_natCast (p := p) (n := 1) (Nat.one_lt_two_pow (by omega))
  simpa using this

theorem round_to_two (p : Nat) (hp : 2 ≤ p) : round_to p 2 = 2 := by
  have h : 2 < 2 ^ p := by
    calc 2 < 2 ^ 2 := by norm_num
      _ ≤ 2 ^ p := Nat.pow_le_pow_right (by norm_num) hp
  have := round_to_natCast (p := p) (n := 2) h
  simpa using this

theorem round_to_neg_one_ld : round_to LDBL_MANT_DIG (-1) = -1 := by
  rw [LDBL_MANT_DIG, round_to_eq 0 (-9223372036854775808) (by norm_num) (by norm_num)]
  · norm_num
  · have : (-1 : ℚ) / 2 ^ ((0 : Int) - (((64 : Nat) : Int) - 1)) =
        ((-9223372036854775808 : Int) : ℚ) := by norm_num
    rw [this, round_half_even_intCast]

theorem round_to_neg_one_d : round_to DBL_MANT_DIG (-1) = -1 := by
  rw [DBL_MANT_DIG, round_to_eq 0 (-4503599627370496) (by norm_num) (by norm_num)]
  · norm_num
  · have : (-1 : ℚ) / 2 ^ ((0 : Int) - (((53 : Nat) : Int) - 1)) =
        ((-4503599627370496 : Int) : ℚ) := by norm_num
    rw [this, round_half_even_intCast]

theorem c_0_05_eq : c_0_05 = 3602879701896397 / 72057594037927936 := by
  rw [c_0_05, DBL_MANT_DIG, round_to_eq (-5) 7205759403792794 (by norm_num [abs_of_pos]) (by norm_num [abs_of_pos])]
  · norm_num
  · apply round_half_even_of_gt <;> norm_num

theorem c_0_05_ne : c_0_05 ≠ 0 := by
  rw [c_0_05_eq]; norm_num

theorem quotient_one : round_to DBL_MANT_DIG (1 / c_0_05) = 20 := by
  rw [c_0_05_eq, DBL_MANT_DIG, round_to_eq 4 5629499534213120 (by norm_num [abs_of_pos])
    (by norm_num [abs_of_pos])]
  · norm_num
  · apply round_half_even_of_gt <;> norm_num

theorem quotient_half : round_to DBL_MANT_DIG (1 / 2 / c_0_05) = 10 := by
  rw [c_0_05_eq, DBL_MANT_DIG, round_to_eq 3 5629499534213120 (by norm_num [abs_of_pos])
    (by norm_num [abs_of_pos])]
  · norm_num
  · apply round_half_even_of_gt <;> norm_num

theorem quotient_zero : round_to DBL_MANT_DIG (0 / c_0_05) = 0 := by
  simp [round_to]

theorem quotient_ge_twenty {ratio : ℚ} (h : 1 ≤ ratio) :
    20 ≤ round_to DBL_MANT_DIG (ratio / c_0_05) := by
  rw [c_0_05_eq]
  have hx : (1 : ℚ) / (3602879701896397 / 72057594037927936) ≤
      ratio / (3602879701896397 / 72057594037927936) :=
    div_le_div_of_nonneg_right h (by norm_num)
  have hx1 : (72057594037927936 / 3602879701896397 : ℚ) ≤
      ratio / (3602879701896397 / 72057594037927936) := by
    refine le_trans ?_ hx
    norm_num
  generalize ratio / (3602879701896397 / 72057594037927936 : ℚ) = x at hx1
  have hxpos : 0 < x := by linarith
  have h16 : (2 : ℚ) ^ (4 : Int) ≤ x := by norm_num; linarith
  have he : 4 ≤ Int.log 2 x :=
    (Int.zpow_le_iff_le_log (b := 2) (by norm_num) hxpos).mp (by exact_mod_cast h16)
  rcases he.eq_or_lt with h4 | h5
  · have hlt : x < (2 : ℚ) ^ ((4 : Int) + 1) := by
      have := Int.lt_zpow_succ_log_self (b := 2) (by norm_num) x
      rw [← h4] at this
      exact_mod_cast this
    have habs : |x| = x := abs_of_pos hxpos
    simp only [round_to, if_neg hxpos.ne', habs, int_log_two_eq h16 hlt, DBL_MANT_DIG]
    have hm : (5629499534213120 : Int) ≤ round_half_even (x / 2 ^ ((4 : Int) - (((53 : Nat) : Int) - 1))) := by
      apply round_half_even_ge_half
      norm_num
      linarith
    have hm' : (5629499534213120 : ℚ) ≤ (round_half_even (x / 2 ^ ((4 : Int) - (((53 : Nat) : Int) - 1))) : ℚ) := by
      exact_mod_cast hm
    have hu : (0 : ℚ) < 2 ^ ((4 : Int) - (((53 : Nat) : Int) - 1)) := zpow_pos (by norm_num) _
    calc (20 : ℚ) = 5629499534213120 * 2 ^ ((4 : Int) - (((53 : Nat) : Int) - 1)) := by norm_num
      _ ≤ _ := mul_le_mul_of_nonneg_right hm' hu.le
  · have hb := (round_to_log_bounds (p := DBL_MANT_DIG) (by decide) hxpos).1
    have h32 : (2 : ℚ) ^ (5 : Int) ≤ 2 ^ Int.log 2 x :=
      zpow_le_zpow_right₀ (by norm_num) (by omega)
    have : (20 : ℚ) ≤ 2 ^ (5 : Int) := by norm_num
    linarith

theorem atof_of_parts {t : List Char} {n : Nat} (h : parse_parts t = (false, n, 0))
    (hn : n < 2 ^ 53) : atof t = (n : ℚ) := by
  have hq : parse_decimal t = (n : ℚ) := by
    simp [parse_decimal, h]
  rw [atof, hq]
  exact round_to_natCast (by rw [DBL_MANT_DIG]; exact hn)

theorem atof_0 : atof "0".toList = ((0 : Nat) : ℚ) := atof_of_parts (by decide) (by norm_num)

theorem atof_4 : atof "4".toList = ((4 : Nat) : ℚ) := atof_of_parts (by decide) (by norm_num)

theorem atof_5 : atof "5".toList = ((5 : Nat) : ℚ) := atof_of_parts (by decide) (by norm_num)

theorem atof_6 : atof "6".toList = ((6 : Nat) : ℚ) := atof_of_parts (by decide) (by norm_num)

theorem atof_10 : atof "10".toList = ((10 : Nat) : ℚ) := atof_of_parts (by decide) (by norm_num)

theorem atof_12 : atof "12".toList = ((12 : Nat) : ℚ) := atof_of_parts (by decide) (by norm_num)

theorem atof_mem_total : atof "16384256".toList = ((16384256 : Nat) : ℚ) :=
  atof_of_parts (by decide) (by norm_num)

theorem atof_mem_active : atof "8192128".toList = ((8192128 : Nat) : ℚ) :=
  atof_of_parts (by decide) (by norm_num)

theorem atof_mem_free : atof "1234567".toList = ((1234567 : Nat) : ℚ) :=
  atof_of_parts (by decide) (by norm_num)

theorem atof_uptime_example : atof "123456.78".toList = 4241942660555735 / 34359738368 := by
  have hp : parse_parts "123456.78".toList = (false, 12345678, 2) := by decide
  have hq : parse_decimal "123456.78".toList = 12345678 / 100 := by
    simp only [parse_decimal, hp]
    norm_num
  rw [atof, hq, DBL_MANT_DIG, round_to_eq 16 8483885321111470 (by norm_num [abs_of_pos])
    (by norm_num [abs_of_pos])]
  · norm_num
  · apply round_half_even_of_lt <;> norm_num

theorem kb_to_gb (n : Nat) (hn : n < 2 ^ 53) :
    round_to DBL_MANT_DIG ((n : ℚ) / (1024 * 1024)) = (n : ℚ) / 1048576 := by
  have h : ((n : ℚ) / (1024 * 1024)) = (n : ℚ) / 2 ^ 20 := by norm_num
  rw [h, round_to_dyadic 20 (by rw [DBL_MANT_DIG]; exact hn)]
  norm_num

/-! ### The tokenizer -/

theorem next_token_eq (pre tok rest delim : List Char) (d : Char)
    (hpre : ∀ c ∈ pre, c ∈ delim) (htok : tok ≠ []) (hnd : ∀ c ∈ tok, c ∉ delim)
    (hd : d ∈ delim) :
    next_token (pre ++ tok ++ d :: rest) delim = (some tok, rest) := by
  obtain ⟨t, ts, rfl⟩ := List.exists_cons_of_ne_nil htok
  have ht : t ∉ delim := hnd t (List.mem_cons_self _ _)
  have h1 : List.dropWhile (fun c => decide (c ∈ delim)) (pre ++ (t :: ts) ++ d :: rest) =
      (t :: ts) ++ d :: rest := by
    rw [List.append_assoc, List.dropWhile_append_of_pos (by simpa using hpre)]
    rw [List.cons_append, List.dropWhile_cons_of_neg (by simpa using ht)]
  have h2 : List.takeWhile (fun c => decide (c ∉ delim)) ((t :: ts) ++ d :: rest) = t :: ts := by
    rw [List.takeWhile_append_of_pos (by simpa using hnd),
      List.takeWhile_cons_of_neg (by simpa using hd), List.append_nil]
  have h3 : List.dropWhile (fun c => decide (c ∉ delim)) ((t :: ts) ++ d :: rest) = d :: rest := by
    rw [List.dropWhile_append_of_pos (by simpa using hnd),
      List.dropWhile_cons_of_neg (by simpa using hd)]
  simp only [next_token, h1, h2, h3]
  simp

theorem strstr_self_of_isPrefixOf {needle s : List Char} (hs : s ≠ [])
    (h : needle.isPrefixOf s = true) : strstr s needle = some s := by
  obtain ⟨c, cs, rfl⟩ := List.exists_cons_of_ne_nil hs
  rw [strstr, if_pos h]

theorem takeWhile_ne_nul_append {x y : List Char} (hx : ∀ c ∈ x, c ≠ NUL) :
    List.takeWhile (fun c => decide (c ≠ NUL)) (x ++ y) =
      x ++ List.takeWhile (fun c => decide (c ≠ NUL)) y :=
  List.takeWhile_append_of_pos (by simpa using hx)

/-! ### get_system -/

theorem calc_uptime_recomposes (sec : Int) :
    (calc_uptime sec).year * 31536000 + (calc_uptime sec).day * 86400 +
      (calc_uptime sec).hour * 3600 + (calc_uptime sec).min * 60 + (calc_uptime sec).sec =
      sec := by
  have e : ∀ a b : Int, 0 ≤ a → 0 ≤ b → a.tdiv b = a / b := fun a b ha hb =>
    Int.tdiv_eq_ediv ha hb
  simp only [calc_uptime, Int.tmod_def]
  rcases le_or_lt 0 sec with h | h
  · rw [e sec 60 h (by norm_num), e sec 3600 h (by norm_num), e sec 86400 h (by norm_num),
      e sec 31536000 h (by norm_num), e _ 60 (by omega) (by norm_num),
      e _ 24 (by omega) (by norm_num), e _ 365 (by omega) (by norm_num)]
    omega
  · obtain ⟨t, rfl⟩ : ∃ t : Int, sec = -t := ⟨-sec, by ring⟩
    have ht : 0 ≤ t := by omega
    simp only [Int.neg_tdiv]
    rw [e t 60 ht (by norm_num), e t 3600 ht (by norm_num), e t 86400 ht (by norm_num),
      e t 31536000 ht (by norm_num), e _ 60 (by omega) (by norm_num),
      e _ 24 (by omega) (by norm_num), e _ 365 (by omega) (by norm_num)]
    omega

theorem get_system_uptime_example :
    get_system_uptime (4241942660555735 / 34359738368) = some ⟨0, 1, 10, 17, 36⟩ := by
  have hf : ⌊(4241942660555735 / 34359738368 : ℚ)⌋ = 123456 := by
    rw [Int.floor_eq_iff]; constructor <;> norm_num
  have h : to_int (4241942660555735 / 34359738368) = some 123456 := by
    simp only [to_int, hf, INT_MIN, INT_MAX]
    norm_num
  rw [get_system_uptime, h]
  decide

theorem hostname_token_example :
    (next_token (read_str "myhost\n".toList 0) " ".toList).1 = some "myhost\n".toList := by
  decide

theorem kernel_token_example :
    (next_token (read_str "5.15.0\n".toList 0) " ".toList).1 = some "5.15.0\n".toList := by
  decide

theorem uptime_token_example :
    (next_token (read_str "123456.78 0.00\n".toList 0) " ".toList).1 =
      some "123456.78".toList := by
  decide

theorem print_uptime_example :
    print_uptime ⟨0, 1, 10, 17, 36⟩ = " 1 days, 10 hours, 17 minutes, 36 seconds".toList := by
  decide

theorem get_system_eq {hostname kernel uptime_line hf kf uf h k t : List Char} {u : Uptime}
    (h1 : read_sz hf 0 ≠ 0) (h2 : read_sz kf 0 ≠ 0) (h3 : read_sz uf 0 ≠ 0)
    (t1 : (next_token (read_str hf 0) " ".toList).1 = some h)
    (t2 : (next_token (read_str kf 0) " ".toList).1 = some k)
    (t3 : (next_token (read_str uf 0) " ".toList).1 = some t)
    (hu : get_system_uptime (atof t) = some u) :
    get_system hostname kernel uptime_line hf kf uf =
      some
        { hostname := h
          kernel := k
          uptime := u
          output :=
            "System Information\n".toList ++ "------------------\n".toList ++
            "Hostname: ".toList ++ h ++ "Kernel Version: ".toList ++ k ++
            "Uptime:".toList ++ print_uptime u ++ "\n\n".toList } := by
  unfold get_system
  simp only [if_pos h1, if_pos h2, if_pos h3, t1, t2, t3, hu]

theorem get_system_example (hostname kernel uptime_line : List Char) :
    get_system hostname kernel uptime_line "myhost\n".toList "5.15.0\n".toList
        "123456.78 0.00\n".toList =
      some
        { hostname := "myhost\n".toList
          kernel := "5.15.0\n".toList
          uptime := ⟨0, 1, 10, 17, 36⟩
          output :=
            ("System Information\n------------------\nHostname: myhost\n" ++
              "Kernel Version: 5.15.0\n" ++
              "Uptime: 1 days, 10 hours, 17 minutes, 36 seconds\n\n").toList } := by
  rw [get_system_eq (by decide) (by decide) (by decide) hostname_token_example
    kernel_token_example uptime_token_example
    (atof_uptime_example ▸ get_system_uptime_example), print_uptime_example]
  rfl

/-! ### get_hardware: the bars -/

theorem print_bar_clamp (hashes : Int) : print_bar hashes = print_bar (max 0 (min 20 hashes)) := by
  unfold print_bar
  apply List.map_congr_left
  intro i hi
  have hi' : i < 20 := List.mem_range.mp hi
  by_cases h : (i : Int) < hashes
  · rw [if_pos h, if_pos (by omega)]
  · rw [if_neg h, if_neg (by omega)]

theorem print_bar_eq (hashes : Int) :
    print_bar hashes =
      List.replicate (max 0 (min 20 hashes)).toNat '#' ++
        List.replicate (20 - (max 0 (min 20 hashes)).toNat) '-' := by
  rw [print_bar_clamp]
  have h0 : 0 ≤ max 0 (min 20 hashes) := by omega
  have h1 : max 0 (min 20 hashes) ≤ 20 := by omega
  generalize max 0 (min 20 hashes) = c at h0 h1
  interval_cases c <;> decide

theorem to_int_of_range {q : ℚ} (hlo : -2147483649 < q) (hhi : q < 2147483648) :
    to_int q = some (if 0 ≤ q then ⌊q⌋ else ⌈q⌉) := by
  unfold to_int INT_MIN INT_MAX
  simp only
  rw [if_pos]
  by_cases h : 0 ≤ q
  · simp only [if_pos h]
    have h1 : 0 ≤ ⌊q⌋ := Int.floor_nonneg.mpr h
    have h2 : ⌊q⌋ < 2147483648 := Int.floor_lt.mpr (by exact_mod_cast hhi)
    omega
  · simp only [if_neg h]
    have h1 : ⌈q⌉ ≤ 0 := Int.ceil_le.mpr (by push_cast; linarith)
    have h2 : -2147483649 < ⌈q⌉ := Int.lt_ceil.mpr (by exact_mod_cast hlo)
    omega

theorem clamp_trunc (q : ℚ) :
    max 0 (min 20 (if 0 ≤ q then ⌊q⌋ else ⌈q⌉)) = max 0 (min 20 ⌊q⌋) := by
  by_cases h : 0 ≤ q
  · rw [if_pos h]
  · rw [if_neg h]
    have h1 : ⌈q⌉ ≤ 0 := Int.ceil_le.mpr (by push_cast; linarith)
    have h2 : ⌊q⌋ < 0 := Int.floor_lt.mpr (by push_cast; linarith)
    omega

/-! ### get_hardware: the CPU samples -/

theorem stat_loop_eq (n : Nat) : ∀ (i : Nat) (tok : List Char) (T I : ℚ),
    stat_loop n i tok T I = (stat_tokens n tok).map (fun ts => stat_acc i T I (ts.map atof)) := by
  induction n with
  | zero => intro i tok T I; simp [stat_loop, stat_tokens, stat_acc]
  | succ n ih =>
    intro i tok T I
    unfold stat_loop stat_tokens
    rcases h : next_token tok " ".toList with ⟨_ | num, tok'⟩
    · simp
    · simp only [ih, Option.map_map]
      rfl

theorem stat_tokens_length (n : Nat) : ∀ (tok : List Char) (ts : List (List Char)),
    stat_tokens n tok = some ts → ts.length = n := by
  induction n with
  | zero => intro tok ts h; simp [stat_tokens] at h; simp [← h]
  | succ n ih =>
    intro tok ts h
    unfold stat_tokens at h
    rcases h' : next_token tok " ".toList with ⟨_ | num, tok'⟩
    · rw [h'] at h
      exact absurd h (by simp)
    · rw [h'] at h
      dsimp only at h
      rcases h2 : stat_tokens n tok' with _ | ts'
      · simp [h2] at h
      · simp [h2] at h
        rw [← h, List.length_cons, ih tok' ts' h2]

theorem get_hardware_stat_of_fields {f : List Char} {vs : List ℚ} (T I : ℚ)
    (h : stat_fields f = some vs) :
    get_hardware_stat T I f = some (stat_acc 0 T I vs) ∧ vs.length = 9 := by
  unfold stat_fields at h
  by_cases hr : read_sz f 0 ≠ 0
  · rw [if_pos hr] at h
    rcases h2 : stat_tokens 9 (next_token (read_str f 0) " ".toList).2 with _ | ts
    · rw [h2] at h
      exact absurd h (by simp)
    · simp only [h2, Option.map_some', Option.some.injEq] at h
      constructor
      · unfold get_hardware_stat
        rw [if_pos hr]
        simp only [stat_loop_eq, h2, Option.map_some', h]
      · rw [← h, List.length_map, stat_tokens_length 9 _ _ h2]
  · rw [if_neg hr] at h
    exact absurd h (by simp)

theorem stat_acc_total (a : List Nat) : ∀ (i T0 : Nat) (I : ℚ), T0 + a.sum < 2 ^ 64 →
    (stat_acc i (T0 : ℚ) I (a.map (Nat.cast : Nat → ℚ))).1 = ((T0 + a.sum : Nat) : ℚ) := by
  induction a with
  | nil => intro i T0 I _; simp [stat_acc]
  | cons x xs ih =>
    intro i T0 I h
    simp only [List.map_cons, stat_acc, List.sum_cons] at h ⊢
    have hx : round_to LDBL_MANT_DIG ((T0 : ℚ) + (x : ℚ)) = ((T0 + x : Nat) : ℚ) := by
      rw [← Nat.cast_add]
      exact round_to_natCast (by rw [LDBL_MANT_DIG]; omega)
    rw [hx, ih (i + 1) (T0 + x) _ (by omega)]
    congr 1
    omega

theorem list_length_nine {α : Type} (l : List α) (h : l.length = 9) :
    ∃ x1 x2 x3 x4 x5 x6 x7 x8 x9, l = [x1, x2, x3, x4, x5, x6, x7, x8, x9] := by
  rcases l with _ | ⟨x1, _ | ⟨x2, _ | ⟨x3, _ | ⟨x4, _ | ⟨x5, _ | ⟨x6, _ | ⟨x7, _ | ⟨x8, _ |
    ⟨x9, _ | ⟨x10, l⟩⟩⟩⟩⟩⟩⟩⟩⟩⟩ <;> simp at h
  exact ⟨x1, x2, x3, x4, x5, x6, x7, x8, x9, rfl⟩

theorem stat_acc_idle_late (vs : List ℚ) : ∀ (i : Nat) (T I : ℚ), 4 ≤ i →
    (stat_acc i T I vs).2 = I := by
  induction vs with
  | nil => intro i T I _; simp [stat_acc]
  | cons v vs ih =>
    intro i T I hi
    rw [stat_acc, ih (i + 1) _ _ (by omega), if_neg (by omega)]

theorem stat_acc_idle (T I v1 v2 v3 v4 : ℚ) (vs : List ℚ) :
    (stat_acc 0 T I (v1 :: v2 :: v3 :: v4 :: vs)).2 = v4 := by
  simp only [stat_acc]
  rw [stat_acc_idle_late vs 4 _ _ (le_refl 4)]
  simp

theorem unit_usage {di dt : ℚ} (h0 : 0 ≤ di) (h1 : di ≤ dt) (hne : dt ≠ 0) :
    ∃ u, fp.round DBL_MANT_DIG
        (fp.sub LDBL_MANT_DIG (.fin 1) (fp.div LDBL_MANT_DIG (.fin di) (.fin dt))) = .fin u ∧
      0 ≤ u ∧ u ≤ 1 := by
  have hdt : 0 < dt := lt_of_le_of_ne (h0.trans h1) (Ne.symm hne)
  have hx0 : 0 ≤ di / dt := div_nonneg h0 hdt.le
  have hx1 : di / dt ≤ 1 := (div_le_one hdt).mpr h1
  have hr0 := round_to_nonneg LDBL_MANT_DIG hx0
  have hr1 := round_to_le_one (p := LDBL_MANT_DIG) (by decide) hx0 hx1
  have hs0 : 0 ≤ 1 - round_to LDBL_MANT_DIG (di / dt) := by linarith
  have hs1 : 1 - round_to LDBL_MANT_DIG (di / dt) ≤ 1 := by linarith
  have ht0 := round_to_nonneg LDBL_MANT_DIG hs0
  have ht1 := round_to_le_one (p := LDBL_MANT_DIG) (by decide) hs0 hs1
  refine ⟨round_to DBL_MANT_DIG (round_to LDBL_MANT_DIG (1 - round_to LDBL_MANT_DIG (di / dt))),
    ?_, round_to_nonneg _ ht0, round_to_le_one (by decide) ht0 ht1⟩
  simp only [fp.div, if_neg hne, fp.sub, fp.round]

theorem stat_fields_of_tokens {f : List Char} {ts : List (List Char)} (hr : read_sz f 0 ≠ 0)
    (ht : stat_tokens 9 (next_token (read_str f 0) " ".toList).2 = some ts) :
    stat_fields f = some (ts.map atof) := by
  rw [stat_fields, if_pos hr, ht]
  rfl

theorem stat_tokens_1 : stat_tokens 9 (next_token (read_str stat_sample_1 0) " ".toList).2 =
    some ["4".toList, "0".toList, "0".toList, "10".toList, "6".toList, "0".toList, "0".toList,
      "0".toList, "0".toList] := by decide

theorem stat_tokens_2 : stat_tokens 9 (next_token (read_str stat_sample_2 0) " ".toList).2 =
    some ["5".toList, "0".toList, "0".toList, "12".toList, "6".toList, "0".toList, "0".toList,
      "0".toList, "0".toList] := by decide

theorem stat_tokens_3 : stat_tokens 9 (next_token (read_str stat_sample_3 0) " ".toList).2 =
    some ["5".toList, "0".toList, "0".toList, "12".toList, "4".toList, "0".toList, "0".toList,
      "0".toList, "0".toList] := by decide

theorem stat_tokens_4 : stat_tokens 9 (next_token (read_str stat_sample_4 0) " ".toList).2 =
    some ["4".toList, "0".toList, "0".toList, "12".toList, "4".toList, "0".toList, "0".toList,
      "0".toList, "0".toList] := by decide

theorem stat_fields_1 :
    stat_fields stat_sample_1 = some ([4, 0, 0, 10, 6, 0, 0, 0, 0].map (Nat.cast : Nat → ℚ)) := by
  rw [stat_fields_of_tokens (by decide) stat_tokens_1]
  simp only [List.map_cons, List.map_nil, atof_0, atof_4, atof_10, atof_6]

theorem stat_fields_2 :
    stat_fields stat_sample_2 = some ([5, 0, 0, 12, 6, 0, 0, 0, 0].map (Nat.cast : Nat → ℚ)) := by
  rw [stat_fields_of_tokens (by decide) stat_tokens_2]
  simp only [List.map_cons, List.map_nil, atof_0, atof_5, atof_12, atof_6]

theorem stat_fields_3 :
    stat_fields stat_sample_3 = some ([5, 0, 0, 12, 4, 0, 0, 0, 0].map (Nat.cast : Nat → ℚ)) := by
  rw [stat_fields_of_tokens (by decide) stat_tokens_3]
  simp only [List.map_cons, List.map_nil, atof_0, atof_5, atof_12, atof_4]

theorem stat_fields_4 :
    stat_fields stat_sample_4 = some ([4, 0, 0, 12, 4, 0, 0, 0, 0].map (Nat.cast : Nat → ℚ)) := by
  rw [stat_fields_of_tokens (by decide) stat_tokens_4]
  simp only [List.map_cons, List.map_nil, atof_0, atof_4, atof_12]

theorem get_hardware_stat_of_nat_fields {f : List Char} (a : List Nat) (I : ℚ)
    (h : stat_fields f = some (a.map (Nat.cast : Nat → ℚ))) (hs : a.sum < 2 ^ 64) :
    get_hardware_stat 0 I f =
      some ((a.sum : ℚ), (stat_acc 0 0 I (a.map (Nat.cast : Nat → ℚ))).2) := by
  rw [(get_hardware_stat_of_fields 0 I h).1, ← Prod.mk.eta (p := stat_acc 0 0 I _)]
  have := stat_acc_total a 0 0 I (by omega)
  rw [Nat.cast_zero, zero_add] at this
  rw [this]

theorem get_hardware_stat_1 : get_hardware_stat 0 0 stat_sample_1 = some (20, 10) := by
  rw [get_hardware_stat_of_nat_fields _ 0 stat_fields_1 (by decide)]
  simp only [List.map_cons, stat_acc_idle]
  norm_num

theorem get_hardware_stat_2 : get_hardware_stat 0 0 stat_sample_2 = some (23, 12) := by
  rw [get_hardware_stat_of_nat_fields _ 0 stat_fields_2 (by decide)]
  simp only [List.map_cons, stat_acc_idle]
  norm_num

theorem get_hardware_stat_3 : get_hardware_stat 0 0 stat_sample_3 = some (21, 12) := by
  rw [get_hardware_stat_of_nat_fields _ 0 stat_fields_3 (by decide)]
  simp only [List.map_cons, stat_acc_idle]
  norm_num

theorem get_hardware_stat_4 : get_hardware_stat 0 0 stat_sample_4 = some (20, 12) := by
  rw [get_hardware_stat_of_nat_fields _ 0 stat_fields_4 (by decide)]
  simp only [List.map_cons, stat_acc_idle]
  norm_num

theorem cpu_usage_example_3 : get_hardware_cpu_usage 20 10 21 12 = .fin (-1) := by
  have e1 : (21 : ℚ) - 20 = 1 := by norm_num
  have e2 : (12 : ℚ) - 10 = 2 := by norm_num
  have e3 : (2 : ℚ) / 1 = 2 := by norm_num
  have e4 : (1 : ℚ) - 2 = -1 := by norm_num
  simp only [get_hardware_cpu_usage, e1, e2, round_to_one LDBL_MANT_DIG (by decide),
    round_to_two DBL_MANT_DIG (by decide), fp.div, if_neg (one_ne_zero), e3,
    round_to_two LDBL_MANT_DIG (by decide), fp.sub, e4, round_to_neg_one_ld, fp.round,
    round_to_neg_one_d]

theorem cpu_usage_same_sample (t i : ℚ) : get_hardware_cpu_usage t i t i = .nan := by
  simp [get_hardware_cpu_usage, round_to_zero, fp.div, fp.sub, fp.round]

theorem cpu_usage_example_4 : get_hardware_cpu_usage 20 10 20 12 = .ninf := by
  have e1 : (20 : ℚ) - 20 = 0 := by norm_num
  have e2 : (12 : ℚ) - 10 = 2 := by norm_num
  simp only [get_hardware_cpu_usage, e1, e2, round_to_zero,
    round_to_two DBL_MANT_DIG (by decide), fp.div, if_true]
  norm_num [fp.sub, fp.round]

theorem print_cpu_percent_ninf : print_cpu_percent .ninf = "] -inf%\n".toList := by
  have : fp.mul DBL_MANT_DIG .ninf (.fin 100) = .ninf := by
    simp [fp.mul]
  simp only [print_cpu_percent, fp.isnan, this, fmt_f1]
  decide

/-! ### get_hardware: the CPU description and the memory -/

theorem cpuinfo_example_model :
    strstr cpuinfo_example "model name".toList = some "model name\t: Acme CPU\n".toList := by
  decide

theorem cpuinfo_example_siblings : strstr cpuinfo_example "siblings".toList = none := by
  decide

theorem cpuinfo_siblings_example_model :
    strstr cpuinfo_siblings_example "model name".toList = some cpuinfo_siblings_example := by
  decide

theorem cpuinfo_siblings_example_siblings :
    strstr cpuinfo_siblings_example "siblings".toList =
      some "siblings\t: 8\ncpu cores\t: 4\n".toList := by
  decide

theorem cpuinfo_siblings_example_model_token :
    (next_token (next_token cpuinfo_siblings_example ":".toList).2 ":\n".toList).1 =
      some " Acme CPU".toList := by
  decide

theorem cpuinfo_siblings_example_token :
    (next_token (next_token "siblings\t: 8\ncpu cores\t: 4\n".toList ":".toList).2
      " ".toList).1 = some "8\ncpu".toList ∧ atoi "8\ncpu".toList = 8 := by
  decide

theorem cpuinfo_example_token :
    (next_token (next_token "model name\t: Acme CPU\n".toList ":".toList).2 ":\n".toList).1 =
      some " Acme CPU".toList := by
  decide

theorem get_hardware_meminfo_eq (mem_total mem_active : ℚ)
    (meminfo label1 sp1 total r1 g1 g2 label2 sp2 active r2 : List Char)
    (h1 : meminfo.take 128 = label1 ++ ' ' :: sp1 ++ total ++ ' ' :: r1)
    (h2 : (meminfo.drop 128).take 128 =
      g1 ++ '\n' :: g2 ++ '\n' :: label2 ++ ' ' :: sp2 ++ active ++ ' ' :: r2)
    (hlabel1 : label1 ≠ [] ∧ ∀ c ∈ label1, c ≠ ' ' ∧ c ≠ NUL)
    (hsp1 : ∀ c ∈ sp1, c = ' ')
    (htotal : total ≠ [] ∧ ∀ c ∈ total, c ≠ ' ' ∧ c ≠ NUL)
    (hg1 : g1 ≠ [] ∧ ∀ c ∈ g1, c ≠ '\n' ∧ c ≠ NUL)
    (hg2 : g2 ≠ [] ∧ ∀ c ∈ g2, c ≠ '\n' ∧ c ≠ NUL)
    (hlabel2 : label2 ≠ [] ∧ ∀ c ∈ label2, c ≠ ' ' ∧ c ≠ NUL)
    (hsp2 : ∀ c ∈ sp2, c = ' ')
    (hactive : active ≠ [] ∧ ∀ c ∈ active, c ≠ ' ' ∧ c ≠ NUL) :
    get_hardware_meminfo mem_total mem_active meminfo =
      some (round_to DBL_MANT_DIG (atof total / (1024 * 1024)),
        round_to DBL_MANT_DIG (atof active / (1024 * 1024))) := by
  have hsn : (' ' : Char) ≠ NUL := by decide
  have hnn : ('\n' : Char) ≠ NUL := by decide
  -- the two reads
  have hlen : 128 < meminfo.length := by
    by_contra hc
    have : meminfo.drop 128 = [] := List.drop_eq_nil_of_le (by omega)
    rw [this] at h2
    have := congrArg List.length h2
    simp at this
    have := List.length_pos_of_ne_nil hg1.1
    omega
  have hr0 : read_sz meminfo 0 = 128 := by simp [read_sz, BUF_SZ]; omega
  have hr1 : read_sz meminfo 128 ≠ 0 := by simp [read_sz, BUF_SZ]; omega
  have hs0 : read_str meminfo 0 =
      [] ++ label1 ++ ' ' :: (sp1 ++ total ++ ' ' :: List.takeWhile (fun c => decide (c ≠ NUL)) r1) := by
    simp only [read_str, List.drop_zero, BUF_SZ, h1, List.nil_append]
    rw [List.append_assoc, List.append_assoc,
      takeWhile_ne_nul_append (fun c hc => (hlabel1.2 c hc).2), List.cons_append,
      List.takeWhile_cons_of_pos (by simpa using hsn),
      takeWhile_ne_nul_append (fun c hc => by rw [hsp1 c hc]; exact hsn),
      takeWhile_ne_nul_append (fun c hc => (htotal.2 c hc).2),
      List.takeWhile_cons_of_pos (by simpa using hsn)]
    simp
  have hs1 : read_str meminfo 128 =
      [] ++ g1 ++ '\n' :: ([] ++ g2 ++ '\n' :: ([] ++ label2 ++ ' ' :: (sp2 ++ active ++ ' ' ::
        List.takeWhile (fun c => decide (c ≠ NUL)) r2))) := by
    simp only [read_str, BUF_SZ, h2, List.nil_append]
    rw [List.append_assoc, List.append_assoc, List.append_assoc, List.append_assoc,
      takeWhile_ne_nul_append (fun c hc => (hg1.2 c hc).2), List.cons_append,
      List.takeWhile_cons_of_pos (by simpa using hnn),
      takeWhile_ne_nul_append (fun c hc => (hg2.2 c hc).2), List.cons_append,
      List.takeWhile_cons_of_pos (by simpa using hnn),
      takeWhile_ne_nul_append (fun c hc => (hlabel2.2 c hc).2), List.cons_append,
      List.takeWhile_cons_of_pos (by simpa using hsn),
      takeWhile_ne_nul_append (fun c hc => by rw [hsp2 c hc]; exact hsn),
      takeWhile_ne_nul_append (fun c hc => (hactive.2 c hc).2),
      List.takeWhile_cons_of_pos (by simpa using hsn)]
    simp
  have sp : ∀ {l : List Char}, (∀ c ∈ l, c ≠ ' ' ∧ c ≠ NUL) → ∀ c ∈ l, c ∉ " ".toList := by
    intro l h c hc; simpa using (h c hc).1
  have nl : ∀ {l : List Char}, (∀ c ∈ l, c ≠ '\n' ∧ c ≠ NUL) → ∀ c ∈ l, c ∉ "\n".toList := by
    intro l h c hc; simpa using (h c hc).1
  have isp : ∀ {l : List Char}, (∀ c ∈ l, c = ' ') → ∀ c ∈ l, c ∈ " ".toList := by
    intro l h c hc; simpa using h c hc
  have hne : (128 : Nat) ≠ 0 := by decide
  have d1 : (' ' : Char) ∈ " ".toList := by decide
  have d2 : ('\n' : Char) ∈ "\n".toList := by decide
  have t1 := next_token_eq [] label1
    (sp1 ++ total ++ ' ' :: List.takeWhile (fun c => decide (c ≠ NUL)) r1) " ".toList ' '
    (fun c hc => absurd hc (List.not_mem_nil c)) hlabel1.1 (sp hlabel1.2) d1
  have t2 := next_token_eq sp1 total (List.takeWhile (fun c => decide (c ≠ NUL)) r1)
    " ".toList ' '
    (isp hsp1) htotal.1 (sp htotal.2) d1
  have t6 := next_token_eq sp2 active (List.takeWhile (fun c => decide (c ≠ NUL)) r2)
    " ".toList ' '
    (isp hsp2) hactive.1 (sp hactive.2) d1
  have t5 := next_token_eq [] label2
    (sp2 ++ active ++ ' ' :: List.takeWhile (fun c => decide (c ≠ NUL)) r2) " ".toList ' '
    (fun c hc => absurd hc (List.not_mem_nil c)) hlabel2.1 (sp hlabel2.2) d1
  have t4 := next_token_eq [] g2
    ([] ++ label2 ++ ' ' :: (sp2 ++ active ++ ' ' ::
      List.takeWhile (fun c => decide (c ≠ NUL)) r2)) "\n".toList '\n'
    (fun c hc => absurd hc (List.not_mem_nil c)) hg2.1 (nl hg2.2) d2
  have t3 := next_token_eq [] g1
    ([] ++ g2 ++ '\n' :: ([] ++ label2 ++ ' ' :: (sp2 ++ active ++ ' ' ::
      List.takeWhile (fun c => decide (c ≠ NUL)) r2))) "\n".toList '\n'
    (fun c hc => absurd hc (List.not_mem_nil c)) hg1.1 (nl hg1.2) d2
  rw [← hs0] at t1
  rw [← hs1, ← hr0] at t3
  rw [← hr0] at hr1
  have h0 : read_sz meminfo 0 ≠ 0 := by rw [hr0]; exact hne
  rw [get_hardware_meminfo, if_pos h0, t1]
  dsimp only
  rw [t2]
  dsimp only
  rw [if_pos hr1, t3]
  dsimp only
  rw [t4]
  dsimp only
  rw [t5]
  dsimp only
  rw [t6]

theorem meminfo_example_first_read :
    meminfo_example.take 128 =
      "MemTotal:".toList ++ ' ' :: "      ".toList ++ "16384256".toList ++
        ' ' :: (meminfo_example.take 128).drop 25 := by
  decide

theorem meminfo_example_second_read :
    (meminfo_example.drop 128).take 128 =
      " 4567890 kB".toList ++ '\n' :: "SwapCached:            0 kB".toList ++
        '\n' :: "Active:".toList ++ ' ' :: "         ".toList ++ "8192128".toList ++
        ' ' :: "kB\nInactive:        2345678 kB\n".toList := by
  decide

theorem get_hardware_meminfo_example (mem_total mem_active : ℚ) :
    get_hardware_meminfo mem_total mem_active meminfo_example =
      some (64001 / 4096, 64001 / 8192) := by
  rw [get_hardware_meminfo_eq mem_total mem_active meminfo_example _ _ _ _ _ _ _ _ _ _
    meminfo_example_first_read meminfo_example_second_read (by decide) (by decide) (by decide)
    (by decide) (by decide) (by decide) (by decide) (by decide),
    atof_mem_total, atof_mem_active, kb_to_gb _ (by norm_num), kb_to_gb _ (by norm_num)]
  norm_num

theorem get_hardware_meminfo_two_lines (mem_total mem_active : ℚ) :
    get_hardware_meminfo mem_total mem_active meminfo_two_lines =
      some (64001 / 4096, round_to DBL_MANT_DIG (mem_active / (1024 * 1024))) := by
  have h0 : read_sz meminfo_two_lines 0 ≠ 0 := by decide
  have h1 : ¬ read_sz meminfo_two_lines (read_sz meminfo_two_lines 0) ≠ 0 := by decide
  have t1 : next_token (read_str meminfo_two_lines 0) " ".toList =
      (some "MemTotal:".toList,
        "      16384256 kB\nMemFree:         1234567 kB\n".toList) := by decide
  have t2 : next_token "      16384256 kB\nMemFree:         1234567 kB\n".toList " ".toList =
      (some "16384256".toList, "kB\nMemFree:         1234567 kB\n".toList) := by decide
  rw [get_hardware_meminfo, if_pos h0, t1]
  dsimp only
  rw [t2]
  dsimp only
  rw [if_neg h1, atof_mem_total, kb_to_gb _ (by norm_num)]
  norm_num

/-! ### get_task_list -/

theorem take_25_of_short (nm : List Char) :
    (if nm.length > 24 then nm.take 25 else nm) = nm.take 25 := by
  split_ifs with h
  · rfl
  · rw [List.take_of_length_le (by omega)]

theorem status_name_line (ti : task_info) (nm rest : List Char) (hnm : nm ≠ [])
    (hchars : ∀ c ∈ nm, c ≠ '\t' ∧ c ≠ '\n') :
    status_name ti ("Name:\t".toList ++ nm ++ '\n' :: rest) =
      some { ti with name := ti.name ++ nm.take 25 } := by
  have hs : strstr ("Name:\t".toList ++ nm ++ '\n' :: rest) "Name".toList =
      some ("Name:\t".toList ++ nm ++ '\n' :: rest) :=
    strstr_self_of_isPrefixOf (by simp) (by rfl)
  have hd : ∀ c ∈ nm, c ∉ "\t\n".toList := by
    intro c hc
    have := hchars c hc
    simp [this.1, this.2]
  have t1 : next_token ("Name:\t".toList ++ nm ++ '\n' :: rest) "\t\n".toList =
      (some "Name:".toList, nm ++ '\n' :: rest) := by
    have := next_token_eq [] "Name:".toList (nm ++ '\n' :: rest) "\t\n".toList '\t'
      (by simp) (by decide) (by decide) (by decide)
    simpa using this
  have t2 : next_token (nm ++ '\n' :: rest) "\t\n".toList = (some nm, rest) := by
    have := next_token_eq [] nm rest "\t\n".toList '\n' (by simp) hnm hd (by decide)
    simpa using this
  simp only [status_name, hs, t1, t2, take_25_of_short]

theorem status_name_absent (ti : task_info) (buffer : List Char)
    (h : strstr buffer "Name".toList = none) : status_name ti buffer = some ti := by
  simp only [status_name, h]

theorem status_state_name {ti ti' : task_info} {buffer : List Char}
    (h : status_state ti buffer = some ti') : ti'.name = ti.name := by
  unfold status_state at h
  split at h
  · injection h with h; rw [h]
  · simp only at h
    split at h
    · exact absurd h (by simp)
    · injection h with h; rw [← h]

theorem status_uid_name {g : Int → Option (List Char)} {ti ti' : task_info} {buffer : List Char}
    (h : status_uid g ti buffer = some ti') : ti'.name = ti.name := by
  unfold status_uid at h
  split at h
  · injection h with h; rw [h]
  · simp only at h
    split at h
    · exact absurd h (by simp)
    · split at h <;> (injection h with h; rw [← h])

theorem status_threads_name {ti ti' : task_info} {buffer : List Char}
    (h : status_threads ti buffer = some ti') : ti'.name = ti.name := by
  unfold status_threads at h
  split at h
  · injection h with h; rw [h]
  · simp only at h
    split at h
    · exact absurd h (by simp)
    · injection h with h; rw [← h]

theorem read_status_cons {g : Int → Option (List Char)} {ti ti' : task_info}
    {buffer : List Char} {reads : List (List Char)}
    (h : read_status g ti (buffer :: reads) = some ti') :
    ∃ t1 t2, status_name ti buffer = some t1 ∧ t2.name = t1.name ∧
      read_status g t2 reads = some ti' := by
  rw [read_status] at h
  simp only [Option.bind_eq_bind, Option.bind_eq_some] at h
  obtain ⟨t1, h1, ta, ha, tb, hb, tc, hc, hrest⟩ := h
  refine ⟨t1, tc, h1, ?_, hrest⟩
  rw [status_threads_name hc, status_uid_name hb, status_state_name ha]

theorem read_status_name_absent {g : Int → Option (List Char)} (reads : List (List Char)) :
    ∀ {ti ti' : task_info}, (∀ b ∈ reads, strstr b "Name".toList = none) →
      read_status g ti reads = some ti' → ti'.name = ti.name := by
  induction reads with
  | nil =>
    intro ti ti' _ h
    rw [read_status] at h
    injection h with h; rw [h]
  | cons b bs ih =>
    intro ti ti' hb h
    obtain ⟨t1, t2, h1, h2, h3⟩ := read_status_cons h
    rw [status_name_absent ti b (hb b (List.mem_cons_self _ _))] at h1
    injection h1 with h1
    rw [ih (fun x hx => hb x (List.mem_cons_of_mem _ hx)) h3, h2, ← h1]

theorem status_example_entry :
    get_task_list_entry (fun _ => none) "42".toList [status_example] =
      some
        { pid := 42, state := "sleeping".toList, name := "abcdefghijklmnopqrstuvwxy".toList,
          user := "1000".toList, tasks := 3 } := by
  decide

set_option maxRecDepth 8192 in
theorem status_two_reads_entry :
    status_read_1.length = 128 ∧ status_read_2.length = 128 ∧
    get_task_list_entry (fun _ => none) "42".toList [status_read_1, status_read_2] =
      some
        { pid := 42, state := "sleepingsleeping".toList,
          name := "abcdefghijklmnopqrstABCDEFGHIJKLMNOPQRST".toList,
          user := "10001000".toList, tasks := 3 } := by
  decide

/-! ## The claims -/

/-- C1: for every non-negative uptime (below 2^31, where the conversion to int is
defined), the breakdown get_system computes from totalSec, the uptime truncated
to an integer, is years = totalSec / 31536000, days = (totalSec / 86400) mod 365,
hours = (totalSec / 3600) mod 24, minutes = (totalSec / 60) mod 60,
seconds = totalSec mod 60, and it recomposes exactly to totalSec; the
recomposition holds for every int the breakdown is computed from. -/
theorem uptime_breakdown_recomposes (uptime : ℚ) (h0 : 0 ≤ uptime) (hmax : uptime < 2147483648) :
    (∃ u, get_system_uptime uptime = some u ∧
      u.year = ⌊uptime⌋ / 31536000 ∧ u.day = ⌊uptime⌋ / 86400 % 365 ∧
      u.hour = ⌊uptime⌋ / 3600 % 24 ∧ u.min = ⌊uptime⌋ / 60 % 60 ∧ u.sec = ⌊uptime⌋ % 60 ∧
      u.year * 31536000 + u.day * 86400 + u.hour * 3600 + u.min * 60 + u.sec = ⌊uptime⌋) ∧
    ∀ sec : Int,
      (calc_uptime sec).year * 31536000 + (calc_uptime sec).day * 86400 +
        (calc_uptime sec).hour * 3600 + (calc_uptime sec).min * 60 + (calc_uptime sec).sec =
        sec := by
  have hf0 : 0 ≤ ⌊uptime⌋ := Int.floor_nonneg.mpr h0
  have hf1 : ⌊uptime⌋ < 2147483648 := Int.floor_lt.mpr (by exact_mod_cast hmax)
  have hto : to_int uptime = some ⌊uptime⌋ := by
    unfold to_int INT_MIN INT_MAX
    simp only [h0, if_true]
    rw [if_pos]
    constructor <;> omega
  refine ⟨⟨calc_uptime ⌊uptime⌋, by simp [get_system_uptime, hto], ?_⟩, calc_uptime_recomposes⟩
  generalize ⌊uptime⌋ = t at hf0 hf1
  have e : ∀ a b : Int, 0 ≤ a → 0 ≤ b → a.tdiv b = a / b := fun a b ha hb =>
    Int.tdiv_eq_ediv ha hb
  have m : ∀ a b : Int, 0 ≤ a → 0 ≤ b → a.tmod b = a % b := fun a b ha hb =>
    Int.tmod_eq_emod ha hb
  simp only [calc_uptime]
  rw [e t 60 hf0 (by norm_num), e t 3600 hf0 (by norm_num), e t 86400 hf0 (by norm_num),
    e t 31536000 hf0 (by norm_num), m t 60 hf0 (by norm_num),
    m _ 60 (by omega) (by norm_num), m _ 24 (by omega) (by norm_num),
    m _ 365 (by omega) (by norm_num)]
  refine ⟨rfl, rfl, rfl, rfl, rfl, ?_⟩
  omega

/-- Witness of C1 at the uptime 123456.78. -/
theorem uptime_breakdown_recomposes_witness :
    ∃ u, get_system_uptime (12345678 / 100) = some u ∧
      u.year = ⌊(12345678 / 100 : ℚ)⌋ / 31536000 ∧
      u.day = ⌊(12345678 / 100 : ℚ)⌋ / 86400 % 365 ∧
      u.hour = ⌊(12345678 / 100 : ℚ)⌋ / 3600 % 24 ∧
      u.min = ⌊(12345678 / 100 : ℚ)⌋ / 60 % 60 ∧ u.sec = ⌊(12345678 / 100 : ℚ)⌋ % 60 ∧
      u.year * 31536000 + u.day * 86400 + u.hour * 3600 + u.min * 60 + u.sec =
        ⌊(12345678 / 100 : ℚ)⌋ :=
  (uptime_breakdown_recomposes (12345678 / 100) (by norm_num) (by norm_num)).1

/-- C2 as stated fails: for the hostname file "myhost\n" and the osrelease file
"5.15.0\n" the hostname get_system reports is not "myhost" and the kernel version
is not "5.15.0"; each keeps the newline that ends the file. -/
theorem get_system_keeps_newline :
    (get_system [] [] [] "myhost\n".toList "5.15.0\n".toList "123456.78 0.00\n".toList).map
        system_info.hostname ≠ some "myhost".toList ∧
    (get_system [] [] [] "myhost\n".toList "5.15.0\n".toList "123456.78 0.00\n".toList).map
        system_info.kernel ≠ some "5.15.0".toList := by
  rw [get_system_example]
  decide

/-- C2, amended: given the hostname file "myhost\n", the osrelease file "5.15.0\n"
and the uptime file "123456.78 0.00\n", get_system reports the hostname
"myhost\n" and the kernel version "5.15.0\n" (the first space-delimited token of
each file, the trailing newline included, which is what ends the printed
line), and the uptime breakdown years=0, days=1, hours=10, minutes=17,
seconds=36. -/
theorem get_system_end_to_end (hostname kernel uptime_line : List Char) :
    ∃ r, get_system hostname kernel uptime_line "myhost\n".toList "5.15.0\n".toList
        "123456.78 0.00\n".toList = some r ∧
      r.hostname = "myhost\n".toList ∧ r.kernel = "5.15.0\n".toList ∧
      r.uptime = ⟨0, 1, 10, 17, 36⟩ ∧
      r.output =
        ("System Information\n------------------\nHostname: myhost\n" ++
          "Kernel Version: 5.15.0\n" ++
          "Uptime: 1 days, 10 hours, 17 minutes, 36 seconds\n\n").toList :=
  ⟨_, get_system_example hostname kernel uptime_line, rfl, rfl, rfl, rfl⟩

/-- C3 as stated fails: for a status file whose Name line carries the 30-character
name "abcdefghijklmnopqrstuvwxyz0123", the name in the record has 25 characters,
"abcdefghijklmnopqrstuvwxy", not the first 24; and for a status file of 256 bytes
whose two reads both show a "Name" line with a 20-character name, the name in
the record has 40 characters. -/
theorem task_name_has_25_characters :
    (get_task_list_entry (fun _ => none) "42".toList [status_example]).map task_info.name =
      some "abcdefghijklmnopqrstuvwxy".toList ∧
    (get_task_list_entry (fun _ => none) "42".toList [status_example]).map task_info.name ≠
      some (("abcdefghijklmnopqrstuvwxyz0123".toList).take 24) ∧
    (get_task_list_entry (fun _ => none) "42".toList [status_example]).map
      (fun ti => ti.name.length) = some 25 ∧
    (get_task_list_entry (fun _ => none) "42".toList [status_read_1, status_read_2]).map
      (fun ti => ti.name.length) = some 40 := by
  rw [status_example_entry, status_two_reads_entry.2.2]
  decide

/-- C3, amended: for every status file whose first read starts with the line
"Name:", tab, process name, and whose later reads do not show the label "Name",
the name step of get_task_list appends the first 25 characters of the process
name (the whole name when it has at most 25) to the record, which is at most 25
characters and exactly 25 when the process name is longer than 24; the record
get_task_list builds has that name, and its row shows it right-justified in the
25-character column. -/
theorem task_name_truncated (getpwuid : Int → Option (List Char)) (d_name nm rest : List Char)
    (reads : List (List Char))
    (hnm : nm ≠ []) (hchars : ∀ c ∈ nm, c ≠ '\t' ∧ c ≠ '\n')
    (hreads : ∀ b ∈ reads, strstr b "Name".toList = none) :
    (∀ ti0 : task_info, status_name ti0 ("Name:\t".toList ++ nm ++ '\n' :: rest) =
      some { ti0 with name := ti0.name ++ nm.take 25 }) ∧
    (nm.take 25).length ≤ 25 ∧ (24 < nm.length → (nm.take 25).length = 25) ∧
    ∀ ti : task_info,
      get_task_list_entry getpwuid d_name (("Name:\t".toList ++ nm ++ '\n' :: rest) :: reads) =
        some ti →
      ti.name = nm.take 25 ∧
      print_task ti =
        fmt_s 5 (fmt_d ti.pid) ++ " | ".toList ++ fmt_s 12 ti.state ++ " | ".toList ++
          (List.replicate (25 - (nm.take 25).length) ' ' ++ nm.take 25) ++ " | ".toList ++
          fmt_s 15 ti.user ++ " | ".toList ++ fmt_d ti.tasks ++ " \n".toList := by
  refine ⟨fun ti0 => status_name_line ti0 nm rest hnm hchars, ?_, ?_, ?_⟩
  · rw [List.length_take]; omega
  · intro h; rw [List.length_take]; omega
  · intro ti hrun
    obtain ⟨t1, t2, h1, h2, h3⟩ := read_status_cons hrun
    rw [status_name_line _ nm rest hnm hchars] at h1
    injection h1 with h1
    have hname : ti.name = nm.take 25 := by
      rw [read_status_name_absent reads hreads h3, h2, ← h1]
      rfl
    refine ⟨hname, ?_⟩
    rw [print_task, hname]
    rfl

/-- Witness of C3, amended: a status file with the 30-character process name
"abcdefghijklmnopqrstuvwxyz0123", whose row shows "abcdefghijklmnopqrstuvwxy". -/
theorem task_name_truncated_witness :
    ∃ ti, get_task_list_entry (fun _ => none) "42".toList [status_example] = some ti ∧
      ti.name = ("abcdefghijklmnopqrstuvwxyz0123".toList).take 25 ∧
      ti.name = "abcdefghijklmnopqrstuvwxy".toList ∧
      print_task ti =
        "   42 |     sleeping | abcdefghijklmnopqrstuvwxy |            1000 | 3 \n".toList :=
  ⟨_, status_example_entry,
    ((task_name_truncated (fun _ => none) "42".toList "abcdefghijklmnopqrstuvwxyz0123".toList
      "State:\tS (sleeping)\nUid:\t1000\t1000\nThreads:\t3\n".toList [] (by decide) (by decide)
      (by simp)).2.2.2 _ status_example_entry).1, rfl, by decide⟩

/-- C4: for every character, get_curr_state returns the table entry of that
character (R running, S sleeping, D disk sleep, Z zombie, T and t tracing stop,
X dead) and "sleeping" for every other character, the NUL of a missing state
included; being a total function it never fails. -/
theorem get_curr_state_table (c : Char) :
    get_curr_state c =
      (if c = 'R' then "running".toList
       else if c = 'S' then "sleeping".toList
       else if c = 'D' then "disk sleep".toList
       else if c = 'Z' then "zombie".toList
       else if c = 'T' ∨ c = 't' then "tracing stop".toList
       else if c = 'X' then "dead".toList
       else "sleeping".toList)
    ∧ get_curr_state NUL = "sleeping".toList := by
  constructor
  · unfold get_curr_state
    split <;> simp_all
  · decide

/-- C5: for every finite ratio whose quotient by 0.05 is within the range of int,
the bar printed by get_hardware has exactly 20 slots, the first k of them '#' and
the other 20 - k of them '-', with k = clamp(floor(ratio / 0.05), 0, 20) at most
20; a negative ratio gives k = 0 and a ratio of 1 or more gives k = 20. -/
theorem gauge_fill (ratio : ℚ)
    (hlo : -2147483649 < round_to DBL_MANT_DIG (ratio / c_0_05))
    (hhi : round_to DBL_MANT_DIG (ratio / c_0_05) < 2147483648) :
    get_hardware_gauge (.fin ratio) =
      some (List.replicate (filled_slots_spec ratio) '#' ++
        List.replicate (20 - filled_slots_spec ratio) '-') ∧
    (List.replicate (filled_slots_spec ratio) '#' ++
        List.replicate (20 - filled_slots_spec ratio) '-').length = 20 ∧
    filled_slots_spec ratio ≤ 20 ∧
    (ratio < 0 → filled_slots_spec ratio = 0) ∧
    (1 ≤ ratio → filled_slots_spec ratio = 20) := by
  have hk : filled_slots_spec ratio ≤ 20 := by
    unfold filled_slots_spec; omega
  refine ⟨?_, ?_, hk, ?_, ?_⟩
  · simp only [get_hardware_gauge, fp.div, if_neg c_0_05_ne, fp.to_int, to_int_of_range hlo hhi,
      Option.map_some', print_bar_eq, clamp_trunc, filled_slots_spec]
  · simp only [List.length_append, List.length_replicate]; omega
  · intro hneg
    have hc : (0 : ℚ) < c_0_05 := by rw [c_0_05_eq]; norm_num
    have hq : round_to DBL_MANT_DIG (ratio / c_0_05) ≤ 0 :=
      round_to_nonpos _ (div_nonpos_of_nonpos_of_nonneg hneg.le hc.le)
    have hf : ⌊round_to DBL_MANT_DIG (ratio / c_0_05)⌋ ≤ 0 := by
      have := Int.floor_le (round_to DBL_MANT_DIG (ratio / c_0_05))
      have : (⌊round_to DBL_MANT_DIG (ratio / c_0_05)⌋ : ℚ) ≤ 0 := le_trans this hq
      exact_mod_cast this
    unfold filled_slots_spec; omega
  · intro hge
    have hf : 20 ≤ ⌊round_to DBL_MANT_DIG (ratio / c_0_05)⌋ :=
      Int.le_floor.mpr (by exact_mod_cast quotient_ge_twenty hge)
    unfold filled_slots_spec; omega

/-- Witness of C5 at the ratios 1.0, 0.0 and 0.5: 20, 0 and 10 filled slots. -/
theorem gauge_fill_witness :
    get_hardware_gauge (.fin 1) = some "####################".toList ∧
    get_hardware_gauge (.fin 0) = some "--------------------".toList ∧
    get_hardware_gauge (.fin (1 / 2)) = some "##########----------".toList := by
  have f20 : ⌊(20 : ℚ)⌋ = 20 := Int.floor_eq_iff.mpr (by norm_num)
  have f0 : ⌊(0 : ℚ)⌋ = 0 := Int.floor_eq_iff.mpr (by norm_num)
  have f10 : ⌊(10 : ℚ)⌋ = 10 := Int.floor_eq_iff.mpr (by norm_num)
  refine ⟨?_, ?_, ?_⟩
  · rw [(gauge_fill 1 (by rw [quotient_one]; norm_num) (by rw [quotient_one]; norm_num)).1,
      filled_slots_spec, quotient_one, f20]
    decide
  · rw [(gauge_fill 0 (by rw [quotient_zero]; norm_num) (by rw [quotient_zero]; norm_num)).1,
      filled_slots_spec, quotient_zero, f0]
    decide
  · rw [(gauge_fill (1 / 2) (by rw [quotient_half]; norm_num)
      (by rw [quotient_half]; norm_num)).1, filled_slots_spec, quotient_half, f10]
    decide

/-- C6 as stated fails: between the samples "cpu  4 0 0 10 6 0 0 0 0 0" and
"cpu  5 0 0 12 4 0 0 0 0 0" (iowait went down by 2) the total delta is 1, not
zero, and the usage get_hardware computes is -1, outside [0, 1]. -/
theorem cpu_usage_outside_unit_interval :
    get_hardware_stat 0 0 stat_sample_1 = some (20, 10) ∧
    get_hardware_stat 0 0 stat_sample_3 = some (21, 12) ∧
    (21 : ℚ) - 20 ≠ 0 ∧
    get_hardware_cpu_usage 20 10 21 12 = .fin (-1) ∧
    ¬ ∃ u, get_hardware_cpu_usage 20 10 21 12 = .fin u ∧ 0 ≤ u ∧ u ≤ 1 := by
  refine ⟨get_hardware_stat_1, get_hardware_stat_3, by norm_num, cpu_usage_example_3, ?_⟩
  rintro ⟨u, hu, h0, _⟩
  rw [cpu_usage_example_3] at hu
  injection hu with hu
  rw [← hu] at h0
  norm_num at h0

/-- C6, amended: for every pair of samples of the CPU-statistics file whose nine
fields after the label are whole numbers, none of them smaller in the second
sample than in the first and the second total below 2^53, get_hardware (its
totals accumulated from zero) obtains both samples, and when the total delta is
nonzero the usage 1 - (idle2 - idle1) / (total2 - total1) is a finite number in
the closed interval [0, 1]. -/
theorem cpu_usage_in_unit_interval (i1 i2 : ℚ) (f1 f2 : List Char) (a b : List Nat)
    (h1 : stat_fields f1 = some (a.map (Nat.cast : Nat → ℚ)))
    (h2 : stat_fields f2 = some (b.map (Nat.cast : Nat → ℚ)))
    (hmono : List.Forall₂ (fun x y => x ≤ y) a b)
    (hbound : b.sum < 2 ^ 53) :
    ∃ t1 d1 t2 d2, get_hardware_stat 0 i1 f1 = some (t1, d1) ∧
      get_hardware_stat 0 i2 f2 = some (t2, d2) ∧
      (t2 - t1 ≠ 0 → ∃ u, get_hardware_cpu_usage t1 d1 t2 d2 = .fin u ∧ 0 ≤ u ∧ u ≤ 1) := by
  obtain ⟨hs1, hl1⟩ := get_hardware_stat_of_fields 0 i1 h1
  obtain ⟨hs2, hl2⟩ := get_hardware_stat_of_fields 0 i2 h2
  rw [List.length_map] at hl1 hl2
  obtain ⟨a1, a2, a3, a4, a5, a6, a7, a8, a9, rfl⟩ := list_length_nine a hl1
  obtain ⟨b1, b2, b3, b4, b5, b6, b7, b8, b9, rfl⟩ := list_length_nine b hl2
  simp only [List.forall₂_cons, List.Forall₂.nil, and_true] at hmono
  simp only [List.sum_cons, List.sum_nil] at hbound
  have hta := stat_acc_total [a1, a2, a3, a4, a5, a6, a7, a8, a9] 0 0 i1
    (by simp only [List.sum_cons, List.sum_nil]; omega)
  have htb := stat_acc_total [b1, b2, b3, b4, b5, b6, b7, b8, b9] 0 0 i2
    (by simp only [List.sum_cons, List.sum_nil]; omega)
  simp only [Nat.cast_zero, zero_add, List.sum_cons, List.sum_nil, add_zero] at hta htb
  have hia : (stat_acc 0 0 i1 (List.map (Nat.cast : Nat → ℚ) [a1, a2, a3, a4, a5, a6, a7, a8, a9])).2
      = (a4 : ℚ) := stat_acc_idle _ _ _ _ _ _ _
  have hib : (stat_acc 0 0 i2 (List.map (Nat.cast : Nat → ℚ) [b1, b2, b3, b4, b5, b6, b7, b8, b9])).2
      = (b4 : ℚ) := stat_acc_idle _ _ _ _ _ _ _
  rw [← Prod.mk.eta (p := stat_acc 0 0 i1 _), hta, hia] at hs1
  rw [← Prod.mk.eta (p := stat_acc 0 0 i2 _), htb, hib] at hs2
  refine ⟨_, _, _, _, hs1, hs2, ?_⟩
  intro hne
  unfold get_hardware_cpu_usage
  simp only
  have ha_le : a1 + (a2 + (a3 + (a4 + (a5 + (a6 + (a7 + (a8 + a9))))))) ≤
      b1 + (b2 + (b3 + (b4 + (b5 + (b6 + (b7 + (b8 + b9))))))) := by omega
  have e1 : round_to LDBL_MANT_DIG
      (((b1 + (b2 + (b3 + (b4 + (b5 + (b6 + (b7 + (b8 + b9))))))) : Nat) : ℚ) -
        ((a1 + (a2 + (a3 + (a4 + (a5 + (a6 + (a7 + (a8 + a9))))))) : Nat) : ℚ)) =
      ((b1 + (b2 + (b3 + (b4 + (b5 + (b6 + (b7 + (b8 + b9))))))) -
        (a1 + (a2 + (a3 + (a4 + (a5 + (a6 + (a7 + (a8 + a9)))))))) : Nat) : ℚ) := by
    rw [← Nat.cast_sub ha_le]
    exact round_to_natCast (by rw [LDBL_MANT_DIG]; omega)
  have e2 : round_to DBL_MANT_DIG ((b4 : ℚ) - (a4 : ℚ)) = ((b4 - a4 : Nat) : ℚ) := by
    rw [← Nat.cast_sub (by omega)]
    exact round_to_natCast (by rw [DBL_MANT_DIG]; omega)
  rw [e1, e2]
  apply unit_usage
  · exact Nat.cast_nonneg _
  · exact_mod_cast (by omega : b4 - a4 ≤ b1 + (b2 + (b3 + (b4 + (b5 + (b6 + (b7 + (b8 + b9))))))) -
        (a1 + (a2 + (a3 + (a4 + (a5 + (a6 + (a7 + (a8 + a9)))))))))
  · rw [Nat.cast_sub ha_le]
    exact hne

/-- Witness of C6, amended: the samples "cpu  4 0 0 10 6 0 0 0 0 0" and
"cpu  5 0 0 12 6 0 0 0 0 0". -/
theorem cpu_usage_in_unit_interval_witness :
    ∃ t1 d1 t2 d2, get_hardware_stat 0 0 stat_sample_1 = some (t1, d1) ∧
      get_hardware_stat 0 0 stat_sample_2 = some (t2, d2) ∧
      (t2 - t1 ≠ 0 → ∃ u, get_hardware_cpu_usage t1 d1 t2 d2 = .fin u ∧ 0 ≤ u ∧ u ≤ 1) :=
  cpu_usage_in_unit_interval 0 0 stat_sample_1 stat_sample_2 [4, 0, 0, 10, 6, 0, 0, 0, 0]
    [5, 0, 0, 12, 6, 0, 0, 0, 0] stat_fields_1 stat_fields_2
    (by simp only [List.forall₂_cons, List.Forall₂.nil]; decide) (by decide)

/-- C7, the code at two pairs of samples with total delta zero.  Twice the sample
"cpu  4 0 0 10 6 0 0 0 0 0": the usage is NaN, the percentage is printed as
"0.0%", and the number of filled slots is the conversion of NaN to int, which is
undefined.  That sample followed by "cpu  4 0 0 12 4 0 0 0 0 0" (same total 20,
idle delta 2): the usage is minus infinity, the percentage is printed as
"-inf%", and the conversion for the bar is undefined again. -/
theorem cpu_usage_zero_delta :
    get_hardware_stat 0 0 stat_sample_1 = some (20, 10) ∧
    get_hardware_cpu_usage 20 10 20 10 = .nan ∧
    print_cpu_percent .nan = "] 0.0%\n".toList ∧
    get_hardware_gauge .nan = none ∧
    print_cpu_line .nan = none ∧
    get_hardware_stat 0 0 stat_sample_4 = some (20, 12) ∧
    get_hardware_cpu_usage 20 10 20 12 = .ninf ∧
    print_cpu_percent .ninf = "] -inf%\n".toList ∧
    get_hardware_gauge .ninf = none ∧
    print_cpu_line .ninf = none := by
  refine ⟨get_hardware_stat_1, cpu_usage_same_sample 20 10, by decide, ?_, ?_,
    get_hardware_stat_4, cpu_usage_example_4, print_cpu_percent_ninf, ?_, ?_⟩
  · simp [get_hardware_gauge, fp.div, fp.to_int]
  · simp [print_cpu_line, get_hardware_gauge, fp.div, fp.to_int]
  · simp [get_hardware_gauge, fp.div, fp.to_int]
    split_ifs <;> rfl
  · simp [print_cpu_line, get_hardware_gauge, fp.div, fp.to_int]
    split_ifs <;> rfl

/-- C8: for every uptime breakdown, the text get_system prints after "Uptime:" is
one space followed by the shown fields separated by ", ", where the shown
fields are, in this order, the years iff nonzero, the days iff nonzero, the hours
iff nonzero, and always the minutes and the seconds; with all higher fields zero
the text is " M minutes, S seconds". -/
theorem print_uptime_fields (u : Uptime) :
    print_uptime u = uptime_text_spec u ∧
    print_uptime { u with year := 0, day := 0, hour := 0 } =
      " ".toList ++ fmt_d u.min ++ " minutes".toList ++ ", ".toList ++ fmt_d u.sec ++
        " seconds".toList := by
  constructor
  · unfold print_uptime uptime_text_spec uptime_fields
    by_cases hy : u.year = 0 <;> by_cases hd : u.day = 0 <;> by_cases hh : u.hour = 0 <;>
      simp [hy, hd, hh, List.intercalate]
  · simp [print_uptime]

/-- C9 as stated fails: in an eight-line memory-info file the second
whitespace-delimited token of the second line is "1234567", but the active
amount get_hardware uses is 8192128 kB (64001/8192 GB), the figure of the seventh
line, which is where the second 128-byte read puts its third line; and for the
file of the first two lines alone the second read returns nothing and the
active amount keeps the value the variable had before (here 0). -/
theorem meminfo_active_not_second_line :
    meminfo_spec_tokens meminfo_example = some ("16384256".toList, "1234567".toList) ∧
    get_hardware_meminfo 0 0 meminfo_example = some (64001 / 4096, 64001 / 8192) ∧
    round_to DBL_MANT_DIG (atof "1234567".toList / (1024 * 1024)) = 1234567 / 1048576 ∧
    (64001 / 8192 : ℚ) ≠ 1234567 / 1048576 ∧
    meminfo_spec_tokens meminfo_two_lines = some ("16384256".toList, "1234567".toList) ∧
    get_hardware_meminfo 0 0 meminfo_two_lines = some (64001 / 4096, 0) := by
  refine ⟨by decide, get_hardware_meminfo_example 0 0, ?_, by norm_num, by decide, ?_⟩
  · rw [atof_mem_free, kb_to_gb _ (by norm_num)]
    norm_num
  · rw [get_hardware_meminfo_two_lines]
    simp [round_to]

/-- C9, amended: when the first 128-byte read of the memory-info file starts with
a label, spaces, the total and a space, and the second 128-byte read consists of
two newline-ended pieces followed by a label, spaces, the active amount and a
space, get_hardware takes the total from the first read and the active amount
from that third line of the second read (not from the second line of the
file), converts each from kilobytes to gigabytes by dividing by 1024*1024, and
uses active/total as the memory usage ratio. -/
theorem meminfo_reads (mem_total mem_active : ℚ)
    (meminfo label1 sp1 total r1 g1 g2 label2 sp2 active r2 : List Char)
    (h1 : meminfo.take 128 = label1 ++ ' ' :: sp1 ++ total ++ ' ' :: r1)
    (h2 : (meminfo.drop 128).take 128 =
      g1 ++ '\n' :: g2 ++ '\n' :: label2 ++ ' ' :: sp2 ++ active ++ ' ' :: r2)
    (hlabel1 : label1 ≠ [] ∧ ∀ c ∈ label1, c ≠ ' ' ∧ c ≠ NUL)
    (hsp1 : ∀ c ∈ sp1, c = ' ')
    (htotal : total ≠ [] ∧ ∀ c ∈ total, c ≠ ' ' ∧ c ≠ NUL)
    (hg1 : g1 ≠ [] ∧ ∀ c ∈ g1, c ≠ '\n' ∧ c ≠ NUL)
    (hg2 : g2 ≠ [] ∧ ∀ c ∈ g2, c ≠ '\n' ∧ c ≠ NUL)
    (hlabel2 : label2 ≠ [] ∧ ∀ c ∈ label2, c ≠ ' ' ∧ c ≠ NUL)
    (hsp2 : ∀ c ∈ sp2, c = ' ')
    (hactive : active ≠ [] ∧ ∀ c ∈ active, c ≠ ' ' ∧ c ≠ NUL) :
    get_hardware_meminfo mem_total mem_active meminfo =
      some (round_to DBL_MANT_DIG (atof total / (1024 * 1024)),
        round_to DBL_MANT_DIG (atof active / (1024 * 1024))) ∧
    get_hardware_mem_usage (round_to DBL_MANT_DIG (atof total / (1024 * 1024)))
        (round_to DBL_MANT_DIG (atof active / (1024 * 1024))) =
      fp.div DBL_MANT_DIG (.fin (round_to DBL_MANT_DIG (atof active / (1024 * 1024))))
        (.fin (round_to DBL_MANT_DIG (atof total / (1024 * 1024)))) :=
  ⟨get_hardware_meminfo_eq mem_total mem_active meminfo label1 sp1 total r1 g1 g2 label2 sp2
    active r2 h1 h2 hlabel1 hsp1 htotal hg1 hg2 hlabel2 hsp2 hactive, rfl⟩

/-- Witness of C9, amended: the eight-line file, whose second read starts inside
the fifth line and has the "Active:" line as its third line. -/
theorem meminfo_reads_witness :
    get_hardware_meminfo 0 0 meminfo_example =
      some (round_to DBL_MANT_DIG (atof "16384256".toList / (1024 * 1024)),
        round_to DBL_MANT_DIG (atof "8192128".toList / (1024 * 1024))) ∧
    get_hardware_mem_usage (round_to DBL_MANT_DIG (atof "16384256".toList / (1024 * 1024)))
        (round_to DBL_MANT_DIG (atof "8192128".toList / (1024 * 1024))) =
      fp.div DBL_MANT_DIG (.fin (round_to DBL_MANT_DIG (atof "8192128".toList / (1024 * 1024))))
        (.fin (round_to DBL_MANT_DIG (atof "16384256".toList / (1024 * 1024)))) :=
  meminfo_reads 0 0 meminfo_example "MemTotal:".toList "      ".toList "16384256".toList
    ((meminfo_example.take 128).drop 25) " 4567890 kB".toList
    "SwapCached:            0 kB".toList "Active:".toList "         ".toList "8192128".toList
    "kB\nInactive:        2345678 kB\n".toList
    meminfo_example_first_read meminfo_example_second_read (by decide) (by decide) (by decide)
    (by decide) (by decide) (by decide) (by decide) (by decide)

/-- C10, the code on CPU-description files without a "siblings" line (one as ARM
kernels write it, one with a "model name" line) and on an empty one: the count
get_hardware prints is whatever value processing_units held before the scan
(the variable is declared without an initial value), for instance 7, and not
0.  On a file with the line "siblings", tab, ": 8" the count is 16. -/
theorem cpuinfo_without_siblings (model : List Char) (processing_units : Int) :
    get_hardware_cpuinfo model processing_units [cpuinfo_arm_example] =
      some (model, processing_units) ∧
    get_hardware_cpuinfo model processing_units [cpuinfo_example] =
      some ("Acme CPU".toList, processing_units) ∧
    get_hardware_cpuinfo model processing_units [] = some (model, processing_units) ∧
    get_hardware_cpuinfo model 7 [cpuinfo_arm_example] ≠ some (model, 0) ∧
    get_hardware_cpuinfo model processing_units [cpuinfo_siblings_example] =
      some ("Acme CPU".toList, 16) := by
  have h1 : strstr cpuinfo_arm_example "model name".toList = none := by decide
  have h2 : strstr cpuinfo_arm_example "siblings".toList = none := by decide
  have h : ∀ pu : Int, get_hardware_cpuinfo model pu [cpuinfo_arm_example] = some (model, pu) := by
    intro pu
    simp only [get_hardware_cpuinfo, h1, h2]
  refine ⟨h _, ?_, by rw [get_hardware_cpuinfo], ?_, ?_⟩
  · simp only [get_hardware_cpuinfo, cpuinfo_example_model, cpuinfo_example_siblings,
      cpuinfo_example_token, Option.map_some']
    rfl
  · rw [h]
    simp
  · simp only [get_hardware_cpuinfo, cpuinfo_siblings_example_model,
      cpuinfo_siblings_example_siblings, cpuinfo_siblings_example_model_token,
      cpuinfo_siblings_example_token, Option.map_some']
    rfl

end Inspector
